import Mathlib

/-!
Verification of the JSON-RPC protocol engine in `udplogserver/ms71lib`
(`_client.py` and `py2/SimpleJSONRPCServer.py`), as a shallow embedding.

Python values are modelled by `PyVal`; the text rendering and parsing done
by the external `json` library is treated as the identity on JSON trees,
so `dumps`/`loads` are modelled as tree-to-tree functions.  Python
exceptions are modelled by the `Except PyErr` monad.
-/

namespace UdpRpc

/-- Python values as produced by `json.loads` and consumed by `json.dumps`
in `ms71lib/_client.py`.  `binary` models an instance of the `Binary`
wrapper class (its `data` bytes). -/
inductive PyVal where
  | null
  | bool (b : Bool)
  | int (n : Int)
  | str (s : String)
  | list (xs : List PyVal)
  | dict (kvs : List (String × PyVal))
  | binary (data : List Nat)
deriving Repr

mutual
/-- Structural equality on `PyVal` (Python `==` on JSON-shaped data). -/
def PyVal.beq : PyVal → PyVal → Bool
  | .null, .null => true
  | .bool a, .bool b => a == b
  | .int a, .int b => a == b
  | .str a, .str b => a == b
  | .list xs, .list ys => PyVal.beqList xs ys
  | .dict xs, .dict ys => PyVal.beqKVs xs ys
  | .binary a, .binary b => a == b
  | _, _ => false

/-- Elementwise equality of value lists. -/
def PyVal.beqList : List PyVal → List PyVal → Bool
  | [], [] => true
  | x :: xs, y :: ys => PyVal.beq x y && PyVal.beqList xs ys
  | _, _ => false

/-- Pairwise equality of key/value member lists. -/
def PyVal.beqKVs : List (String × PyVal) → List (String × PyVal) → Bool
  | [], [] => true
  | (k1, v1) :: xs, (k2, v2) :: ys =>
      k1 == k2 && PyVal.beq v1 v2 && PyVal.beqKVs xs ys
  | _, _ => false
end

instance : BEq PyVal := ⟨PyVal.beq⟩

/-- `l` starts with `pat`, elementwise. -/
def listStartsWith {α : Type} [BEq α] : List α → List α → Bool
  | [], _ => true
  | _ :: _, [] => false
  | p :: ps, x :: xs => p == x && listStartsWith ps xs

/-- `pat` occurs as a contiguous sublist of `l` (Python substring test). -/
def listContainsSub {α : Type} [BEq α] (pat : List α) : List α → Bool
  | [] => listStartsWith pat []
  | x :: xs => listStartsWith pat (x :: xs) || listContainsSub pat xs

/-- Python exceptions observed by the modelled code paths. -/
inductive PyErr where
  | typeError
  | keyError
  | attributeError
  | indexError
  | valueError
  | unicodeDecodeError
  | notImplementedError
  | fault (code msg : PyVal)
  | exn (msg : String)
  | protocolError (url : String) (errcode : Nat) (errmsg : String)
      (headers : List (String × String))
deriving Repr

/-- Whether an error is a `Fault` (the JSON-RPC application fault class),
as opposed to a low-level decode failure. -/
def PyErr.isFault : PyErr → Bool
  | .fault _ _ => true
  | _ => false

/-- Python dict lookup on an association list (Python dicts carry no
duplicate keys; association lists standing for dicts are read through
their first matching entry). -/
def dictGet {α : Type} (kvs : List (String × α)) (k : String) : Option α :=
  match kvs with
  | [] => none
  | (k', v) :: rest => if k' = k then some v else dictGet rest k

/-- Python truthiness of a value (`if params:`, `if kwargs:` in `dumps`). -/
def pyTruthy : PyVal → Bool
  | .null => false
  | .bool b => b
  | .int n => n != 0
  | .str s => s != ""
  | .list xs => !xs.isEmpty
  | .dict kvs => !kvs.isEmpty
  | .binary _ => true

/-- Python `k in r` as used in `loads`: mapping-key test on dicts, element
test on lists, substring test on strings, `TypeError` (not iterable) on
numbers, `None`, booleans and `Binary` instances. -/
def pyContains (r : PyVal) (k : String) : Except PyErr Bool :=
  match r with
  | .dict kvs => .ok (dictGet kvs k).isSome
  | .list xs => .ok (xs.contains (.str k))
  | .str s => .ok (listContainsSub k.toList s.toList)
  | _ => .error .typeError

/-- Python `r.pop(k)` as used in `loads`: dict pop (the removal is not
observed afterwards, each key is read at most once), `TypeError` on lists
(`pop` takes an integer index), `AttributeError` on strings and other
values (no `pop` attribute). -/
def pyPop (r : PyVal) (k : String) : Except PyErr PyVal :=
  match r with
  | .dict kvs =>
      match dictGet kvs k with
      | some v => .ok v
      | none => .error .keyError
  | .list _ => .error .typeError
  | _ => .error .attributeError

/-- Python `r[k]` with a string key: dict subscript, `TypeError` on lists
and strings (indices must be integers) and on non-subscriptable values. -/
def pySubscript (r : PyVal) (k : String) : Except PyErr PyVal :=
  match r with
  | .dict kvs =>
      match dictGet kvs k with
      | some v => .ok v
      | none => .error .keyError
  | _ => .error .typeError

mutual
/-- The `_object_hook` pass of `json.loads(..., object_hook=_object_hook)`
(`_client.py` lines 613-617): every parsed object carrying a `__binary__`
key is handed to `_binary`, whose `Binary.decode` calls
`base64.decodebytes` on the decoded value; on Python 3 that raises
`TypeError` for every non-bytes argument, and JSON parsing never produces
bytes, so any `__binary__` object makes the whole parse fail. -/
def applyHook : PyVal → Except PyErr PyVal
  | .list xs => do pure (.list (← applyHookList xs))
  | .dict kvs => do
      let kvs' ← applyHookKVs kvs
      if (dictGet kvs' "__binary__").isSome then
        .error .typeError
      else
        pure (.dict kvs')
  | v => pure v

/-- Hook pass over the elements of a parsed array. -/
def applyHookList : List PyVal → Except PyErr (List PyVal)
  | [] => pure []
  | x :: xs => do pure ((← applyHook x) :: (← applyHookList xs))

/-- Hook pass over the members of a parsed object. -/
def applyHookKVs : List (String × PyVal) → Except PyErr (List (String × PyVal))
  | [] => pure []
  | (k, v) :: xs => do pure ((k, ← applyHook v) :: (← applyHookKVs xs))
end

mutual
/-- `json.dumps(·, ensure_ascii=False, cls=ExtJSONEncoder)` modelled at the
JSON-tree level (the text rendering by the `json` library is the identity
on trees).  `ExtJSONEncoder.default` (`_client.py` lines 514-526) is
invoked on a `Binary` wrapper and evaluates `obj.encode()`, which raises
`TypeError`: `Binary.encode` (line 411) requires a positional `out` stream
argument.  Decimal/datetime/date/set inputs do not occur as `PyVal`s. -/
def extEncode : PyVal → Except PyErr PyVal
  | .binary _ => .error .typeError
  | .list xs => do pure (.list (← extEncodeList xs))
  | .dict kvs => do pure (.dict (← extEncodeKVs kvs))
  | v => pure v

/-- Serialization pass over the elements of a list. -/
def extEncodeList : List PyVal → Except PyErr (List PyVal)
  | [] => pure []
  | x :: xs => do pure ((← extEncode x) :: (← extEncodeList xs))

/-- Serialization pass over the members of a dict. -/
def extEncodeKVs : List (String × PyVal) → Except PyErr (List (String × PyVal))
  | [] => pure []
  | (k, v) :: xs => do pure ((k, ← extEncode v) :: (← extEncodeKVs xs))
end

/-- The first positional argument of `dumps`: either ordinary data or a
`Fault` instance (with its `faultCode` and `faultString`). -/
inductive DumpsParams where
  | vals (v : PyVal)
  | faultObj (code msg : PyVal)
deriving Repr

/-- The `data` serialized by `dumps`: the params themselves, or, for a
`Fault` first argument, the `error = [faultCode, faultString]` pair. -/
def dumpsData (params : DumpsParams) : Except PyErr PyVal :=
  match params with
  | .vals v => extEncode v
  | .faultObj c m => extEncode (.list [c, m])

/-- `dumps(params, kwargs, methodname, methodresponse)` from `_client.py`
lines 528-578, modelled at the JSON-tree level; the final
`data.encode(encoding)` step is the UTF-8 rendering of the returned tree.
A `Fault` first argument forces `methodresponse` and replaces the data
with `[faultCode, faultString]`.  In the unreachable corner where a Fault
is combined with a truthy `methodname` and truthy `kwargs`, the source
interpolates the Python literal `None` into the JSON text, producing
non-JSON output; that corner is modelled as an encoding failure. -/
def dumps (params : DumpsParams) (kwargs : Option PyVal)
    (methodname : Option String) (methodresponse : Bool) :
    Except PyErr PyVal :=
  let isFault : Bool :=
    match params with
    | .faultObj _ _ => true
    | .vals _ => false
  let mresp : Bool := methodresponse || isFault
  let paramsTruthy : Bool :=
    match params with
    | .vals v => pyTruthy v
    | .faultObj _ _ => true
  let kwTruthy : Bool :=
    match kwargs with
    | some kw => pyTruthy kw
    | none => false
  match dumpsData params with
  | .error e => .error e
  | .ok data =>
    let kwser : Except PyErr (Option PyVal) :=
      if !isFault && kwTruthy then
        match extEncode (kwargs.getD .null) with
        | .error e => .error e
        | .ok d => .ok (some d)
      else .ok none
    match kwser with
    | .error e => .error e
    | .ok kwdata =>
      let responseVal : PyVal :=
        if mresp then
          .dict [((if isFault then "error" else "result"), data)]
        else data
      match methodname with
      | some mn =>
          if mn = "" then .ok responseVal
          else
            let pfields := if paramsTruthy then [("params", data)] else []
            if kwTruthy then
              match kwdata with
              | some kd =>
                  .ok (.dict ([("method", PyVal.str mn)] ++ pfields
                        ++ [("kwargs", kd)]))
              | none => .error .typeError
            else
              .ok (.dict ([("method", PyVal.str mn)] ++ pfields))
      | none => .ok responseVal

/-- The triple returned by `loads`: unmarshalled params (or result value),
kwargs (`{}` when absent), and the raw `method` value (`none` for a
response). -/
structure LoadsResult where
  params : PyVal
  kwargs : PyVal
  method : Option PyVal
deriving Repr

/-- `raise Fault(*e)` in `loads`: star-unpacking the decoded `error` value
into `Fault(faultCode, faultString)`.  Exactly two positional values are
required; a 2-character string or a 2-key dict also unpacks (to its
characters / keys); every other value raises `TypeError`. -/
def faultFromStar : PyVal → PyErr
  | .list [c, m] => .fault c m
  | .str s =>
      match s.toList with
      | [a, b] => .fault (.str (String.singleton a)) (.str (String.singleton b))
      | _ => .typeError
  | .dict kvs =>
      match kvs with
      | [(k1, _), (k2, _)] => .fault (.str k1) (.str k2)
      | _ => .typeError
  | _ => .typeError

/-- `loads(data)` from `_client.py` lines 589-611, modelled on the parsed
JSON tree (the byte-level `json.loads` text parsing is external; its
`object_hook` pass is `applyHook`). -/
def loads (data : PyVal) : Except PyErr LoadsResult :=
  match applyHook data with
  | .error e => .error e
  | .ok r =>
    match pyContains r "method" with
    | .error e => .error e
    | .ok true =>
        let pres : Except PyErr PyVal :=
          match pyContains r "params" with
          | .error e => .error e
          | .ok true => pyPop r "params"
          | .ok false => .ok (.list [])
        match pres with
        | .error e => .error e
        | .ok params =>
          let kres : Except PyErr PyVal :=
            match pyContains r "kwargs" with
            | .error e => .error e
            | .ok true => pyPop r "kwargs"
            | .ok false => .ok (.dict [])
          match kres with
          | .error e => .error e
          | .ok kwargs =>
            match pySubscript r "method" with
            | .error e => .error e
            | .ok m => .ok ⟨params, kwargs, some m⟩
    | .ok false =>
      match pyContains r "result" with
      | .error e => .error e
      | .ok true =>
          match pyPop r "result" with
          | .error e => .error e
          | .ok v => .ok ⟨v, .dict [], none⟩
      | .ok false =>
          match pyPop r "error" with
          | .error e => .error e
          | .ok e => .error (faultFromStar e)

mutual
/-- The JSON-tree fragment the codec can handle losslessly: no `Binary`
wrapper anywhere (the encoder crashes on those) and no object carrying
the reserved `__binary__` key (the decode hook crashes on those). -/
def binFree : PyVal → Bool
  | .binary _ => false
  | .list xs => binFreeList xs
  | .dict kvs => (dictGet kvs "__binary__").isNone && binFreeKVs kvs
  | _ => true

/-- `binFree` over the elements of a list. -/
def binFreeList : List PyVal → Bool
  | [] => true
  | x :: xs => binFree x && binFreeList xs

/-- `binFree` over the member values of a dict. -/
def binFreeKVs : List (String × PyVal) → Bool
  | [] => true
  | (_, v) :: xs => binFree v && binFreeKVs xs
end

@[simp] theorem exceptBindOk {ε α β : Type} (a : α) (f : α → Except ε β) :
    (Except.ok a : Except ε α) >>= f = f a := rfl

@[simp] theorem exceptBindErr {ε α β : Type} (e : ε) (f : α → Except ε β) :
    (Except.error e : Except ε α) >>= f = Except.error e := rfl

@[simp] theorem exceptPureEq {ε α : Type} (a : α) :
    (pure a : Except ε α) = Except.ok a := rfl

mutual
/-- On a `binFree` tree the decode hook is the identity. -/
theorem applyHook_binFree : ∀ (v : PyVal), binFree v = true → applyHook v = .ok v
  | .null, _ => rfl
  | .bool _, _ => rfl
  | .int _, _ => rfl
  | .str _, _ => rfl
  | .binary _, h => by simp [binFree] at h
  | .list xs, h => by
      simp only [binFree] at h
      simp [applyHook, applyHookList_binFree xs h]
  | .dict kvs, h => by
      simp only [binFree, Bool.and_eq_true] at h
      simp [applyHook, applyHookKVs_binFree kvs h.2,
            Option.isNone_iff_eq_none.mp h.1]

/-- List version of `applyHook_binFree`. -/
theorem applyHookList_binFree :
    ∀ (xs : List PyVal), binFreeList xs = true → applyHookList xs = .ok xs
  | [], _ => rfl
  | x :: xs, h => by
      simp only [binFreeList, Bool.and_eq_true] at h
      simp [applyHookList, applyHook_binFree x h.1, applyHookList_binFree xs h.2]

/-- Dict version of `applyHook_binFree`. -/
theorem applyHookKVs_binFree :
    ∀ (kvs : List (String × PyVal)), binFreeKVs kvs = true → applyHookKVs kvs = .ok kvs
  | [], _ => rfl
  | (k, v) :: xs, h => by
      simp only [binFreeKVs, Bool.and_eq_true] at h
      simp [applyHookKVs, applyHook_binFree v h.1, applyHookKVs_binFree xs h.2]
end

mutual
/-- On a `binFree` tree the serializer succeeds and is the identity. -/
theorem extEncode_binFree : ∀ (v : PyVal), binFree v = true → extEncode v = .ok v
  | .null, _ => rfl
  | .bool _, _ => rfl
  | .int _, _ => rfl
  | .str _, _ => rfl
  | .binary _, h => by simp [binFree] at h
  | .list xs, h => by
      simp only [binFree] at h
      simp [extEncode, extEncodeList_binFree xs h]
  | .dict kvs, h => by
      simp only [binFree, Bool.and_eq_true] at h
      simp [extEncode, extEncodeKVs_binFree kvs h.2]

/-- List version of `extEncode_binFree`. -/
theorem extEncodeList_binFree :
    ∀ (xs : List PyVal), binFreeList xs = true → extEncodeList xs = .ok xs
  | [], _ => rfl
  | x :: xs, h => by
      simp only [binFreeList, Bool.and_eq_true] at h
      simp [extEncodeList, extEncode_binFree x h.1, extEncodeList_binFree xs h.2]

/-- Dict version of `extEncode_binFree`. -/
theorem extEncodeKVs_binFree :
    ∀ (kvs : List (String × PyVal)), binFreeKVs kvs = true → extEncodeKVs kvs = .ok kvs
  | [], _ => rfl
  | (k, v) :: xs, h => by
      simp only [binFreeKVs, Bool.and_eq_true] at h
      simp [extEncodeKVs, extEncode_binFree v h.1, extEncodeKVs_binFree xs h.2]
end

/-- The wire object produced by `dumps` for a method call: `params` and
`kwargs` members are present exactly when truthy. -/
def callWire (mn : String) (ps : List PyVal) (kw : List (String × PyVal)) : PyVal :=
  .dict ([("method", PyVal.str mn)]
    ++ (if ps.isEmpty then [] else [("params", PyVal.list ps)])
    ++ (if kw.isEmpty then [] else [("kwargs", PyVal.dict kw)]))

theorem dumps_call_eq (mn : String) (hmn : ¬ mn = "") (ps : List PyVal)
    (kw : List (String × PyVal))
    (hp : binFree (.list ps) = true) (hk : binFree (.dict kw) = true) :
    dumps (.vals (.list ps)) (some (.dict kw)) (some mn) false
      = .ok (callWire mn ps kw) := by
  by_cases hps : ps.isEmpty <;> by_cases hkw : kw.isEmpty <;>
    simp [dumps, dumpsData, callWire, extEncode_binFree _ hp, extEncode_binFree _ hk,
          pyTruthy, hps, hkw, hmn]

theorem loads_callWire (mn : String) (ps : List PyVal) (kw : List (String × PyVal))
    (hp : binFree (.list ps) = true) (hk : binFree (.dict kw) = true) :
    loads (callWire mn ps kw) = .ok ⟨.list ps, .dict kw, some (.str mn)⟩ := by
  have hw : binFree (callWire mn ps kw) = true := by
    by_cases hps : ps.isEmpty <;> by_cases hkw : kw.isEmpty <;>
      simp_all [callWire, binFree, binFreeKVs, dictGet, Bool.and_eq_true]
  rw [loads, applyHook_binFree _ hw]
  by_cases hps : ps.isEmpty <;> by_cases hkw : kw.isEmpty <;>
    simp_all [callWire, pyContains, pyPop, pySubscript, dictGet, List.isEmpty_iff]

theorem dumps_result_eq (v : PyVal) (hv : binFree v = true) :
    dumps (.vals v) none none true = .ok (.dict [("result", v)]) := by
  simp [dumps, dumpsData, extEncode_binFree _ hv]

theorem loads_result_eq (v : PyVal) (hv : binFree v = true) :
    loads (.dict [("result", v)]) = .ok ⟨v, .dict [], none⟩ := by
  have hw : binFree (.dict [("result", v)]) = true := by
    simp [binFree, binFreeKVs, dictGet, hv]
  rw [loads, applyHook_binFree _ hw]
  simp [pyContains, pyPop, dictGet]

theorem dumps_fault_eq (c m : PyVal) (hc : binFree c = true) (hm : binFree m = true) :
    dumps (.faultObj c m) none none false = .ok (.dict [("error", .list [c, m])]) := by
  simp [dumps, dumpsData, extEncode, extEncode_binFree _ hc,
        extEncode_binFree _ hm, extEncodeList]

theorem loads_fault_eq (c m : PyVal) (hc : binFree c = true) (hm : binFree m = true) :
    loads (.dict [("error", .list [c, m])]) = .error (.fault c m) := by
  have hw : binFree (.dict [("error", .list [c, m])]) = true := by
    simp [binFree, binFreeKVs, binFreeList, dictGet, hc, hm]
  rw [loads, applyHook_binFree _ hw]
  simp [pyContains, pyPop, dictGet, faultFromStar]

/-- C1 (amended): for envelopes whose values carry no `Binary` wrapper and
no object with the reserved `__binary__` key, decoding the encoding of a
Call envelope yields the same method, params and kwargs; a Result envelope
decodes back to the same result value; and a Fault envelope decodes back
to a raised Fault with the same code and message.  (The amendment excludes
values containing a `__binary__` member, on which decoding fails; see the
counterexample.) -/
theorem C1_envelope_roundtrip
    (mn : String) (ps : List PyVal) (kw : List (String × PyVal)) (v c m : PyVal)
    (hmn : ¬ mn = "")
    (hp : binFree (.list ps) = true) (hk : binFree (.dict kw) = true)
    (hv : binFree v = true) (hc : binFree c = true) (hm : binFree m = true) :
    (dumps (.vals (.list ps)) (some (.dict kw)) (some mn) false >>= loads)
        = .ok ⟨.list ps, .dict kw, some (.str mn)⟩
    ∧ (dumps (.vals v) none none true >>= loads) = .ok ⟨v, .dict [], none⟩
    ∧ (dumps (.faultObj c m) none none false >>= loads)
        = .error (.fault c m) := by
  refine ⟨?_, ?_, ?_⟩
  · rw [dumps_call_eq mn hmn ps kw hp hk]
    simpa using loads_callWire mn ps kw hp hk
  · rw [dumps_result_eq v hv]
    simpa using loads_result_eq v hv
  · rw [dumps_fault_eq c m hc hm]
    simpa using loads_fault_eq c m hc hm

/-- C1 witness: the round trip evaluated at concrete envelopes. -/
theorem C1_envelope_roundtrip_witness :
    (dumps (.vals (.list [.int 1])) (some (.dict [("k", .int 2)])) (some "m") false
        >>= loads) = .ok ⟨.list [.int 1], .dict [("k", .int 2)], some (.str "m")⟩
    ∧ (dumps (.vals (.int 42)) none none true >>= loads)
        = .ok ⟨.int 42, .dict [], none⟩
    ∧ (dumps (.faultObj (.int 7) (.str "boom")) none none false >>= loads)
        = .error (.fault (.int 7) (.str "boom")) :=
  C1_envelope_roundtrip "m" [.int 1] [("k", .int 2)] (.int 42) (.int 7) (.str "boom")
    (by decide) (by rfl) (by rfl) (by rfl) (by rfl) (by rfl)

/-- C1 counterexample: the claim as stated fails.  A Call envelope whose
params contain the JSON object `\x7b"__binary__": "QQ=="\x7d` does not
decode back to itself: the decode hook hands the string to
`base64.decodebytes`, which raises `TypeError`, so the round trip errors
instead of returning the envelope. -/
theorem C1_counterexample :
    (dumps (.vals (.list [.dict [("__binary__", .str "QQ==")]]))
        (some (.dict [])) (some "m") false >>= loads)
      = .error .typeError := by rfl

/-- The payload parses as a JSON object (a Python dict). -/
def isObjVal : PyVal → Bool
  | .dict _ => true
  | _ => false

mutual
/-- The decode hook can only fail with `TypeError`. -/
theorem applyHook_error : ∀ (v : PyVal) (e : PyErr), applyHook v = .error e → e = .typeError
  | .null, e, h => by simp [applyHook] at h
  | .bool _, e, h => by simp [applyHook] at h
  | .int _, e, h => by simp [applyHook] at h
  | .str _, e, h => by simp [applyHook] at h
  | .binary _, e, h => by simp [applyHook] at h
  | .list xs, e, h => by
      cases hx : applyHookList xs with
      | error e' =>
          have : e = e' := by simp [applyHook, hx] at h; exact h.symm
          exact this ▸ applyHookList_error xs e' hx
      | ok _ => simp [applyHook, hx] at h
  | .dict kvs, e, h => by
      cases hx : applyHookKVs kvs with
      | error e' =>
          have : e = e' := by simp [applyHook, hx] at h; exact h.symm
          exact this ▸ applyHookKVs_error kvs e' hx
      | ok kvs' =>
          by_cases hb : (dictGet kvs' "__binary__").isSome
          · simp [applyHook, hx, hb] at h
            simp [h]
          · simp [applyHook, hx, hb] at h

/-- List version of `applyHook_error`. -/
theorem applyHookList_error :
    ∀ (xs : List PyVal) (e : PyErr), applyHookList xs = .error e → e = .typeError
  | [], e, h => by simp [applyHookList] at h
  | x :: xs, e, h => by
      cases hx : applyHook x with
      | error e' =>
          have : e = e' := by simp [applyHookList, hx] at h; exact h.symm
          exact this ▸ applyHook_error x e' hx
      | ok _ =>
          cases hxs : applyHookList xs with
          | error e' =>
              have : e = e' := by simp [applyHookList, hx, hxs] at h; exact h.symm
              exact this ▸ applyHookList_error xs e' hxs
          | ok _ => simp [applyHookList, hx, hxs] at h

/-- Dict version of `applyHook_error`. -/
theorem applyHookKVs_error :
    ∀ (kvs : List (String × PyVal)) (e : PyErr), applyHookKVs kvs = .error e → e = .typeError
  | [], e, h => by simp [applyHookKVs] at h
  | (k, v) :: xs, e, h => by
      cases hv : applyHook v with
      | error e' =>
          have : e = e' := by simp [applyHookKVs, hv] at h; exact h.symm
          exact this ▸ applyHook_error v e' hv
      | ok _ =>
          cases hxs : applyHookKVs xs with
          | error e' =>
              have : e = e' := by simp [applyHookKVs, hv, hxs] at h; exact h.symm
              exact this ▸ applyHookKVs_error xs e' hxs
          | ok _ => simp [applyHookKVs, hv, hxs] at h
end

/-- The hook preserves the key set of an object's member list. -/
theorem applyHookKVs_keys :
    ∀ (kvs kvs' : List (String × PyVal)), applyHookKVs kvs = .ok kvs' →
      ∀ k, (dictGet kvs' k).isSome = (dictGet kvs k).isSome
  | [], kvs', h, k => by simp [applyHookKVs] at h; simp [← h]
  | (k0, v) :: xs, kvs', h, k => by
      cases hv : applyHook v with
      | error e' => simp [applyHookKVs, hv] at h
      | ok v' =>
          cases hxs : applyHookKVs xs with
          | error e' => simp [applyHookKVs, hv, hxs] at h
          | ok xs' =>
              simp only [applyHookKVs, hv, hxs, exceptBindOk, exceptPureEq,
                Except.ok.injEq] at h
              subst h
              by_cases hk : k0 = k <;>
                simp [dictGet, hk, applyHookKVs_keys xs xs' hxs k]

/-- Hooking a parsed object either fails or yields an object with the
same key set. -/
theorem applyHook_dict_shape (kvs : List (String × PyVal)) (w : PyVal)
    (h : applyHook (.dict kvs) = .ok w) :
    ∃ kvs', w = .dict kvs' ∧
      ∀ k, (dictGet kvs' k).isSome = (dictGet kvs k).isSome := by
  cases hx : applyHookKVs kvs with
  | error e => simp [applyHook, hx] at h
  | ok kvs' =>
      by_cases hb : (dictGet kvs' "__binary__").isSome
      · simp [applyHook, hx, hb] at h
      · refine ⟨kvs', ?_, applyHookKVs_keys kvs kvs' hx⟩
        simp [applyHook, hx, hb] at h
        exact h.symm

/-- Hooking a parsed array either fails or yields an array. -/
theorem applyHook_list_shape (xs : List PyVal) (w : PyVal)
    (h : applyHook (.list xs) = .ok w) : ∃ xs', w = .list xs' := by
  cases hx : applyHookList xs with
  | error e => simp [applyHook, hx] at h
  | ok xs' => exact ⟨xs', by simp [applyHook, hx] at h; exact h.symm⟩
theorem loads_nonobj_fails :
    ∀ (j : PyVal), isObjVal j = false → ∃ e, loads j = .error e ∧ e.isFault = false := by
  intro j hj
  match j with
  | .dict _ => simp [isObjVal] at hj
  | .null => exact ⟨.typeError, by simp [loads, applyHook, pyContains], rfl⟩
  | .bool b => exact ⟨.typeError, by simp [loads, applyHook, pyContains], rfl⟩
  | .int n => exact ⟨.typeError, by simp [loads, applyHook, pyContains], rfl⟩
  | .binary d => exact ⟨.typeError, by simp [loads, applyHook, pyContains], rfl⟩
  | .str s =>
      cases h1 : listContainsSub "method".toList s.toList with
      | true =>
          cases h2 : listContainsSub "params".toList s.toList with
          | true =>
              exact ⟨.attributeError, by
                simp only [loads, applyHook, exceptPureEq, pyContains, pyPop,
                  pySubscript, h1, h2], rfl⟩
          | false =>
              cases h3 : listContainsSub "kwargs".toList s.toList with
              | true =>
                  exact ⟨.attributeError, by
                    simp only [loads, applyHook, exceptPureEq, pyContains, pyPop,
                      pySubscript, h1, h2, h3], rfl⟩
              | false =>
                  exact ⟨.typeError, by
                    simp only [loads, applyHook, exceptPureEq, pyContains, pyPop,
                      pySubscript, h1, h2, h3], rfl⟩
      | false =>
          cases h4 : listContainsSub "result".toList s.toList with
          | true =>
              exact ⟨.attributeError, by
                simp only [loads, applyHook, exceptPureEq, pyContains, pyPop,
                  pySubscript, h1, h4], rfl⟩
          | false =>
              exact ⟨.attributeError, by
                simp only [loads, applyHook, exceptPureEq, pyContains, pyPop,
                  pySubscript, h1, h4], rfl⟩
  | .list xs =>
      cases hx : applyHook (.list xs) with
      | error e =>
          exact ⟨e, by simp [loads, hx], by rw [applyHook_error _ _ hx]; rfl⟩
      | ok w =>
          obtain ⟨xs', rfl⟩ := applyHook_list_shape xs w hx
          cases h1 : xs'.contains (PyVal.str "method") with
          | true =>
              cases h2 : xs'.contains (PyVal.str "params") with
              | true =>
                  exact ⟨.typeError, by
                    simp only [loads, hx, pyContains, pyPop, pySubscript, h1, h2], rfl⟩
              | false =>
                  cases h3 : xs'.contains (PyVal.str "kwargs") with
                  | true =>
                      exact ⟨.typeError, by
                        simp only [loads, hx, pyContains, pyPop, pySubscript,
                          h1, h2, h3], rfl⟩
                  | false =>
                      exact ⟨.typeError, by
                        simp only [loads, hx, pyContains, pyPop, pySubscript,
                          h1, h2, h3], rfl⟩
          | false =>
              cases h4 : xs'.contains (PyVal.str "result") with
              | true =>
                  exact ⟨.typeError, by
                    simp only [loads, hx, pyContains, pyPop, pySubscript, h1, h4], rfl⟩
              | false =>
                  exact ⟨.typeError, by
                    simp only [loads, hx, pyContains, pyPop, pySubscript, h1, h4], rfl⟩

theorem loads_nokeys_fails (kvs : List (String × PyVal))
    (h1 : dictGet kvs "method" = none) (h2 : dictGet kvs "result" = none)
    (h3 : dictGet kvs "error" = none) :
    ∃ e, loads (.dict kvs) = .error e ∧ e.isFault = false := by
  cases hx : applyHook (.dict kvs) with
  | error e =>
      exact ⟨e, by simp [loads, hx], by rw [applyHook_error _ _ hx]; rfl⟩
  | ok w =>
      obtain ⟨kvs', rfl, hkeys⟩ := applyHook_dict_shape kvs w hx
      have hk1 : (dictGet kvs' "method").isSome = false := by rw [hkeys, h1]; rfl
      have hk2 : (dictGet kvs' "result").isSome = false := by rw [hkeys, h2]; rfl
      have hk3 : dictGet kvs' "error" = none := by
        have := hkeys "error"
        rw [h3] at this
        cases hc : dictGet kvs' "error" with
        | none => rfl
        | some v => rw [hc] at this; simp at this
      refine ⟨.keyError, ?_, rfl⟩
      simp [loads, hx, pyContains, pyPop, hk1, hk2, hk3]

theorem loads_errkey_fault (kvs : List (String × PyVal)) (c m : PyVal)
    (hbf : binFree (.dict kvs) = true)
    (h1 : dictGet kvs "method" = none) (h2 : dictGet kvs "result" = none)
    (h3 : dictGet kvs "error" = some (.list [c, m])) :
    loads (.dict kvs) = .error (.fault c m) := by
  rw [loads, applyHook_binFree _ hbf]
  simp [pyContains, pyPop, h1, h2, h3, faultFromStar]

/-- C2 (amended): decode failure modes of `loads`.
Part 1: a payload that does not parse to a JSON object always fails with a
low-level decode error (Python TypeError/AttributeError/KeyError — the
MalformedEnvelope class), never with a Fault.
Part 2: a JSON object carrying none of the keys `method`, `result`,
`error` likewise fails with a non-Fault decode error.
Part 3: when the `error` key is present and neither `method` nor `result`
is present (and the payload is free of the reserved `__binary__` member),
decode raises a Fault carrying the encoded code and message.
Amendment: as stated, the claim requires a Fault whenever `error` is
present; in the code the `method` and `result` branches take precedence —
see the counterexample. -/
theorem C2_decode_failure_modes :
    (∀ j : PyVal, isObjVal j = false →
        ∃ e, loads j = .error e ∧ e.isFault = false)
    ∧ (∀ kvs : List (String × PyVal), dictGet kvs "method" = none →
        dictGet kvs "result" = none → dictGet kvs "error" = none →
        ∃ e, loads (.dict kvs) = .error e ∧ e.isFault = false)
    ∧ (∀ (kvs : List (String × PyVal)) (c m : PyVal),
        binFree (.dict kvs) = true →
        dictGet kvs "method" = none → dictGet kvs "result" = none →
        dictGet kvs "error" = some (.list [c, m]) →
        loads (.dict kvs) = .error (.fault c m)) :=
  ⟨loads_nonobj_fails, loads_nokeys_fails, loads_errkey_fault⟩

/-- C2 witness: the failure modes evaluated at concrete payloads. -/
theorem C2_decode_failure_modes_witness :
    (∃ e, loads (.int 5) = .error e ∧ e.isFault = false)
    ∧ (∃ e, loads (.dict [("foo", .int 1)]) = .error e ∧ e.isFault = false)
    ∧ loads (.dict [("error", .list [.int 3, .str "msg"])])
        = .error (.fault (.int 3) (.str "msg")) :=
  ⟨C2_decode_failure_modes.1 (.int 5) rfl,
   C2_decode_failure_modes.2.1 [("foo", .int 1)] rfl rfl rfl,
   C2_decode_failure_modes.2.2 [("error", .list [.int 3, .str "msg"])]
     (.int 3) (.str "msg") rfl rfl rfl rfl⟩

/-- C2 counterexample: the claim as stated fails.  In a payload carrying
both a `method` and an `error` key, the `error` key is present, yet
decode returns a Call envelope instead of raising a Fault — the `method`
branch takes precedence. -/
theorem C2_counterexample :
    loads (.dict [("method", .str "m"), ("error", .list [.int 1, .str "x"])])
      = .ok ⟨.list [], .dict [], some (.str "m")⟩ := by rfl

/-- C7: the claim is right but the code is broken (code bug).  Serializing
a `Binary` wrapper raises TypeError: `ExtJSONEncoder.default` evaluates
`obj.encode()`, but `Binary.encode` in `_client.py` requires a positional
`out` stream argument (the Python-2 twin declares `encode(self, out=None)`
and returns the base64 text when called without arguments; the Python-3
port dropped that default).  Decoding an object with the `__binary__` key
likewise raises TypeError because `base64.decodebytes` rejects the `str`
produced by JSON parsing.  This theorem evaluates both codec directions at
the failing input `Binary(b"A")` / its intended wire form. -/
theorem C7_binary_codec_broken :
    extEncode (.binary [65]) = .error .typeError
    ∧ dumps (.vals (.list [.binary [65]])) none (some "m") false
        = .error .typeError
    ∧ applyHook (.dict [("__binary__", .str "QQ==\n")]) = .error .typeError
    ∧ loads (.dict [("result", .dict [("__binary__", .str "QQ==\n")])])
        = .error .typeError :=
  ⟨rfl, rfl, rfl, rfl⟩

/-! ## gzip content-encoding wrappers (`gzip_encode` / `gzip_decode`) -/

/-- The RFC 1952 codec provided by the external `gzip`/`zlib` library,
modelled by its interface: `compress` is what `GzipFile(mode="wb")`
produces from a sequence of `write` calls once closed; `extract` is what
`GzipFile(mode="rb").read()` recovers from a byte stream (`none` models
the `OSError` raised on invalid data).  Its round-trip contract
(`extract (compress chunks) = some chunks.flatten`) is a hypothesis of the
theorems, not assumed globally. -/
structure GzCodec where
  compress : List (List Nat) → List Nat
  extract : List Nat → Option (List Nat)

/-- The argument of `gzip_encode`: Python bytes, a list/tuple/generator of
byte rows, or a file-like object whose `read(4096)` yields `chunks` in
order (a falsy chunk ends the copy loop, as in the source's `while part`).
-/
inductive GzData where
  | bytes (b : List Nat)
  | list (rows : List (List Nat))
  | tuple (rows : List (List Nat))
  | gen (rows : List (List Nat))
  | stream (chunks : List (List Nat))
deriving Repr

/-- The chunks a `while part:` read loop copies: stops at the first empty
read. -/
def chunksRead (chunks : List (List Nat)) : List (List Nat) :=
  chunks.takeWhile (fun c => !c.isEmpty)

/-- `gzip_encode(data)` from `_client.py` lines 627-649: writes the rows of
a list/tuple/generator (or the chunks of a file-like object, or the single
byte string) into one `GzipFile` stream; raises `NotImplementedError` when
the `gzip` module is unavailable. -/
def gzip_encode (gz : Option GzCodec) (data : GzData) : Except PyErr (List Nat) :=
  match gz with
  | none => .error .notImplementedError
  | some g =>
      match data with
      | .list rows => .ok (g.compress rows)
      | .tuple rows => .ok (g.compress rows)
      | .gen rows => .ok (g.compress rows)
      | .stream chunks => .ok (g.compress (chunksRead chunks))
      | .bytes b => .ok (g.compress [b])

/-- `gzip_decode(data, max_decode)` from `_client.py` lines 663-680: reads
the stream (up to `max_decode + 1` bytes when a limit is given), converts
the `OSError` of invalid data into `ValueError`, and raises `ValueError`
when the decoded payload exceeds the limit; a negative `max_decode` (the
default, `-1`) means unlimited. -/
def gzip_decode (gz : Option GzCodec) (data : List Nat) (max_decode : Int) :
    Except PyErr (List Nat) :=
  match gz with
  | none => .error .notImplementedError
  | some g =>
      match g.extract data with
      | none => .error .valueError
      | some full =>
          let decoded := if max_decode < 0 then full
            else full.take (max_decode.toNat + 1)
          if 0 ≤ max_decode ∧ (decoded.length : Int) > max_decode then
            .error .valueError
          else .ok decoded

/-- C10: assuming the RFC 1952 contract of the external gzip codec
(extracting a compressed write sequence yields the concatenation of the
writes), `gzip_decode (gzip_encode b) = b` with the default unlimited
`max_decode = -1` for every byte string `b`, and encoding a list or tuple
of byte chunks decodes to the concatenation of the chunks: the
content-encoding wrappers are a lossless round trip. -/
theorem C10_gzip_roundtrip (gz : GzCodec)
    (hrt : ∀ chunks, gz.extract (gz.compress chunks) = some chunks.flatten)
    (b : List Nat) (rows rows2 : List (List Nat)) :
    (gzip_encode (some gz) (.bytes b) >>= fun e => gzip_decode (some gz) e (-1))
        = .ok b
    ∧ (gzip_encode (some gz) (.list rows) >>= fun e => gzip_decode (some gz) e (-1))
        = .ok rows.flatten
    ∧ (gzip_encode (some gz) (.tuple rows2) >>= fun e => gzip_decode (some gz) e (-1))
        = .ok rows2.flatten := by
  refine ⟨?_, ?_, ?_⟩ <;>
    simp [gzip_encode, gzip_decode, hrt]

/-- C10 witness: the round trip evaluated with a concrete codec meeting
the contract and concrete payloads. -/
theorem C10_gzip_roundtrip_witness :
    (gzip_encode (some ⟨List.flatten, fun bs => some bs⟩) (.bytes [1, 2, 3])
        >>= fun e => gzip_decode (some ⟨List.flatten, fun bs => some bs⟩) e (-1))
      = .ok [1, 2, 3]
    ∧ (gzip_encode (some ⟨List.flatten, fun bs => some bs⟩) (.list [[1], [2, 3]])
        >>= fun e => gzip_decode (some ⟨List.flatten, fun bs => some bs⟩) e (-1))
      = .ok [1, 2, 3]
    ∧ (gzip_encode (some ⟨List.flatten, fun bs => some bs⟩) (.tuple [[4], [5]])
        >>= fun e => gzip_decode (some ⟨List.flatten, fun bs => some bs⟩) e (-1))
      = .ok [4, 5] := by
  have h := C10_gzip_roundtrip ⟨List.flatten, fun bs => some bs⟩
    (fun chunks => rfl) [1, 2, 3] [[1], [2, 3]] [[4], [5]]
  simpa using h

/-! ## Python string primitives over character lists

The byte-position based `String` operations of the standard library do not
reduce inside the kernel, so the Python string methods the sources use
(`startswith`, `split`, slicing) are modelled over character lists. -/

/-- Python `s.startswith(p)`. -/
def pyStartsWith (s p : String) : Bool :=
  listStartsWith p.toList s.toList

/-- Split a character list at every occurrence of `c` (Python
`str.split(sep)` with a one-character separator: always at least one
part, the empty string giving one empty part). -/
def splitChar (c : Char) : List Char → List (List Char)
  | [] => [[]]
  | x :: xs =>
      match splitChar c xs with
      | [] => [[]]
      | part :: parts =>
          if x == c then [] :: part :: parts else (x :: part) :: parts

/-- Python `s.split(c)` for a one-character separator. -/
def pySplit (s : String) (c : Char) : List String :=
  (splitChar c s.toList).map String.mk

/-- Python `s[n:]` (drop the first `n` characters). -/
def pyDrop (s : String) (n : Nat) : String :=
  String.mk (s.toList.drop n)

/-! ## Server dispatcher (`py2/SimpleJSONRPCServer.py`) -/

/-- The observable behavior of a Python callable handler: its value, a
raised `Fault`, or another raised exception (carried as the formatted
`"%s:%s" % (exc_type, exc_value)` text). -/
inductive HOut where
  | ok (v : PyVal)
  | fault (code msg : PyVal)
  | exn (msg : String)
deriving Repr

/-- A handler: called with positional params and keyword kwargs. -/
def HFun : Type := List PyVal → List (String × PyVal) → HOut

/-- A Python object as seen by `resolve_dotted_attribute`: its attribute
dictionary and, when callable, its call behavior.  `pfx` models the
optional `_prefix` attribute installed by `register_instance(prefix=...)`
(`none` = attribute absent; only the root instance's value is consulted,
as in the source). -/
inductive PyObj where
  | mk (pfx : Option String) (attrs : List (String × PyObj))
      (callBehavior : Option HFun)

/-- The `_prefix` attribute of an object. -/
def PyObj.pfxOf : PyObj → Option String
  | .mk p _ _ => p

/-- The attribute dictionary of an object. -/
def PyObj.attrsOf : PyObj → List (String × PyObj)
  | .mk _ a _ => a

/-- The call behavior of an object, when callable. -/
def PyObj.callOf : PyObj → Option HFun
  | .mk _ _ c => c

/-- `func(*params, **kwargs)`: calling a resolved object.  A non-callable
object raises `TypeError`.  Params always arrive as a parsed JSON array
and kwargs as a parsed JSON object in this protocol; other shapes raise
`TypeError` on star-unpacking. -/
def pyCall (o : PyObj) (params kwargs : PyVal) : HOut :=
  match o.callOf with
  | none => .exn "TypeError: object is not callable"
  | some f =>
      match params, kwargs with
      | .list xs, .dict kvs => f xs kvs
      | _, _ => .exn "TypeError: argument unpacking failed"

/-- The attribute walk of `resolve_dotted_attribute`: each segment that
starts with `_` raises `AttributeError` (private-attribute rejection),
otherwise `getattr` either descends or raises `AttributeError`. -/
def resolveWalk : PyObj → List String → Except PyErr PyObj
  | o, [] => .ok o
  | o, i :: rest =>
      if pyStartsWith i "_" then .error .attributeError
      else
        match dictGet o.attrsOf i with
        | some o' => resolveWalk o' rest
        | none => .error .attributeError

/-- `resolve_dotted_attribute(obj, attr, allow_dotted_names)` from
`py2/SimpleJSONRPCServer.py` lines 120-144: strips the instance's
`_prefix` when present, truthy and matching; splits the name at dots only
when `allow_dotted_names` is true; then walks attributes, rejecting any
segment that starts with `_`. -/
def resolve_dotted_attribute (obj : PyObj) (attr : String)
    (allow_dotted_names : Bool) : Except PyErr PyObj :=
  let attr :=
    match obj.pfxOf with
    | some p =>
        if p ≠ "" ∧ pyStartsWith attr p then pyDrop attr p.length else attr
    | none => attr
  let attrs := if allow_dotted_names then pySplit attr '.' else [attr]
  resolveWalk obj attrs

/-- The server-side dispatcher state: the registered-function table, the
optional registered instance with its optional generic `_dispatch`
capability, and the `allow_dotted_names` flag stored by
`register_instance`. -/
structure Dispatcher where
  funcs : List (String × HFun)
  inst : Option PyObj
  instDispatch : Option (String → PyVal → PyVal → HOut)
  allow_dotted_names : Bool

/-- The message of the `Exception` raised for an unresolvable method (the
MethodNotFound condition). -/
def notSupportedMsg (method : String) : String :=
  "method \"" ++ method ++ "\" is not supported"

/-- `SimpleJSONRPCDispatcher._dispatch(method, params, kwargs)`
(`py2/SimpleJSONRPCServer.py` lines 463-508): an exactly-registered
function wins; otherwise, an instance with a generic `_dispatch` method
receives the whole call; otherwise the method name is resolved as a
dotted attribute path (`AttributeError` is swallowed); an unresolved
method raises the method-not-supported `Exception`. -/
def dispatcher_dispatch (d : Dispatcher) (method : String)
    (params kwargs : PyVal) : HOut :=
  match dictGet d.funcs method with
  | some f =>
      (match params, kwargs with
       | .list xs, .dict kvs => f xs kvs
       | _, _ => .exn "TypeError: argument unpacking failed")
  | none =>
      match d.inst with
      | none => .exn (notSupportedMsg method)
      | some obj =>
          match d.instDispatch with
          | some g => g method params kwargs
          | none =>
              match resolve_dotted_attribute obj method d.allow_dotted_names with
              | .ok o => pyCall o params kwargs
              | .error _ => .exn (notSupportedMsg method)

/-- A walk over segments that include one starting with `_` always fails:
earlier segments may fail to resolve, and the underscore segment is
rejected — either way the walk errors. -/
theorem resolveWalk_underscore_fails :
    ∀ (segs : List String) (o : PyObj),
      (∃ s ∈ segs, pyStartsWith s "_" = true) →
      ∃ e, resolveWalk o segs = .error e := by
  intro segs
  induction segs with
  | nil => intro o h; simp at h
  | cons i rest ih =>
      intro o h
      by_cases hi : pyStartsWith i "_" = true
      · exact ⟨.attributeError, by simp [resolveWalk, hi]⟩
      · obtain ⟨s, hs, hu⟩ := h
        rcases List.mem_cons.mp hs with hs | hs
        · exact absurd (hs ▸ hu) hi
        · match ho : dictGet o.attrsOf i with
          | none => exact ⟨.attributeError, by simp [resolveWalk, hi, ho]⟩
          | some o' =>
              obtain ⟨e, he⟩ := ih o' ⟨s, hs, hu⟩
              exact ⟨e, by simp [resolveWalk, hi, ho, he]⟩

/-- C6 (amended): for a method name with a dot-separated segment starting
with an underscore and no entry in the registered-function table, dispatch
fails with the method-not-supported condition (MethodNotFound), regardless
of whether an attribute with that path exists on the registered instance —
provided the instance exposes no generic `_dispatch` capability, no
`_prefix` stripping applies to the name, and dotted resolution is enabled
(`allow_dotted_names = true`).  (Amendment: a registered `_prefix` that
the method name starts with is stripped before the underscore check and
can make such a name resolve — see the counterexample.) -/
theorem C6_private_method_rejected (d : Dispatcher) (method : String)
    (params kwargs : PyVal)
    (hseg : ∃ s ∈ pySplit method '.', pyStartsWith s "_" = true)
    (hfun : dictGet d.funcs method = none)
    (hdot : d.allow_dotted_names = true)
    (hgen : d.instDispatch = none)
    (hpfx : ∀ obj, d.inst = some obj →
      ∀ p, obj.pfxOf = some p → p = "" ∨ pyStartsWith method p = false) :
    dispatcher_dispatch d method params kwargs = .exn (notSupportedMsg method) := by
  rw [dispatcher_dispatch, hfun]
  match hinst : d.inst with
  | none => rfl
  | some obj =>
      rw [hgen]
      have hstrip :
          (match obj.pfxOf with
            | some p =>
                if p ≠ "" ∧ pyStartsWith method p then pyDrop method p.length
                else method
            | none => method) = method := by
        match hp : obj.pfxOf with
        | none => rfl
        | some p =>
            rcases hpfx obj hinst p hp with h | h <;> simp [h]
      simp only [resolve_dotted_attribute, hstrip, hdot, if_true]
      obtain ⟨e, he⟩ := resolveWalk_underscore_fails (pySplit method '.') obj hseg
      rw [he]

/-- C6 witness: a dispatcher with an empty function table and a plain
instance rejects `obj._hidden` even though the instance has a callable
attribute at that path. -/
theorem C6_private_method_rejected_witness :
    dispatcher_dispatch
        ⟨[], some (.mk none
            [("obj", .mk none [("_hidden", .mk none []
                (some (fun _ _ => .ok (.str "v"))))] none)] none),
         none, true⟩
        "obj._hidden" (.list []) (.dict [])
      = .exn (notSupportedMsg "obj._hidden") :=
  C6_private_method_rejected _ "obj._hidden" (.list []) (.dict [])
    ⟨"_hidden", by decide, by rfl⟩ rfl rfl rfl
    (fun obj hobj p hp => by
      cases hobj
      simp [PyObj.pfxOf] at hp)

/-- C6 counterexample: the claim as stated fails.  With an instance
registered with `prefix="_"` (so `instance._prefix = "_"`) and a callable
attribute `hidden`, the method name `_hidden` — whose only dotted segment
starts with an underscore, and which is absent from the function table —
is dispatched successfully instead of failing with MethodNotFound: the
`_prefix` stripping removes the underscore before the private-name
check. -/
theorem C6_counterexample :
    (pySplit "_hidden" '.' = ["_hidden"]
        ∧ pyStartsWith "_hidden" "_" = true)
    ∧ dispatcher_dispatch
        ⟨[], some (.mk (some "_")
            [("hidden", .mk none [] (some (fun _ _ => .ok (.str "v"))))] none),
         none, true⟩
        "_hidden" (.list []) (.dict [])
      = .ok (.str "v") :=
  ⟨⟨rfl, rfl⟩, rfl⟩

/-! ## `system_multicall` (`py2/SimpleJSONRPCServer.py` lines 374-445) -/

/-- The result record appended for one multicall entry: a singleton
`[value]` for success, an `error` record carrying the fault code and
message for a raised `Fault`, and a code-1 `error` record for any other
exception (`_send_traceback_header` is `False` by default, so no
traceback text is appended). -/
def mcRecord : HOut → PyVal
  | .ok v => .list [v]
  | .fault c m => .dict [("error", .list [c, m])]
  | .exn msg => .dict [("error", .list [.int 1, .str msg])]

/-- The `"%s:%s" % (exc_type, exc_value)` rendering of an exception caught
by the per-entry handler; the interpreter's message text is environment
text, the model keeps the exception class name. -/
def errText : PyErr → String
  | .typeError => "TypeError"
  | .keyError => "KeyError"
  | .attributeError => "AttributeError"
  | .indexError => "IndexError"
  | .valueError => "ValueError"
  | .unicodeDecodeError => "UnicodeDecodeError"
  | .notImplementedError => "NotImplementedError"
  | .fault _ _ => "Fault"
  | .exn m => m
  | .protocolError _ _ _ _ => "ProtocolError"

/-- The completion-push configuration captured by an
`async:*:system.emit` entry: `ssekey`/`eventname` from `params[0]` and
`params[1]`, `url`/`api_key` from kwargs. -/
structure EmitCfg where
  ssekey : PyVal
  eventname : PyVal
  url : PyVal
  api_key : PyVal

/-- Join parts back with `:` separators. -/
def joinColon : List (List Char) → List Char
  | [] => []
  | [p] => p
  | p :: ps => p ++ ':' :: joinColon ps

/-- Python `s.split(':', 2)`: at most three parts, the third keeping its
interior colons. -/
def pySplitColon2 (s : String) : List String :=
  match splitChar ':' s.toList with
  | a :: b :: c :: rest => [String.mk a, String.mk b, String.mk (joinColon (c :: rest))]
  | parts => parts.map String.mk

/-- One `system_multicall` entry, inside the per-entry `try`: the records
to append (none for a successful `system.emit` configuration entry)
together with the updated emit configuration, or the exception the
per-entry handler catches.  An `async:` entry's handler runs on a daemon
thread whose effects are outside the response; the inline record is the
`[id]` acknowledgement (`[None]` when no emit target is configured).
`genId` stands for the `urlsafe_b64encode(uuid.uuid4().bytes)` token
generated when the entry's id part is empty. -/
def multicallStep (dispatch : String → PyVal → PyVal → HOut)
    (genId : Nat → String) (emitCfg : Option EmitCfg) (idx : Nat)
    (mv params kwargs : PyVal) : Except PyErr (List PyVal × Option EmitCfg) :=
  match mv with
  | .str method_name =>
      if pyStartsWith method_name "async:" then
        match pySplitColon2 method_name with
        | [_, ida, mname] =>
            let ida := if ida = "" then genId idx else ida
            if mname = "system.emit" then
              match params with
              | .list (p0 :: p1 :: _) =>
                  (match kwargs with
                   | .dict kk =>
                       (match dictGet kk "url", dictGet kk "api_key" with
                        | some u, some ak => .ok ([], some ⟨p0, p1, u, ak⟩)
                        | _, _ => .error .keyError)
                   | _ => .error .typeError)
              | .list _ => .error .indexError
              | _ => .error .typeError
            else
              match emitCfg with
              | none => .ok ([.list [.null]], emitCfg)
              | some _ => .ok ([.list [.str ida]], emitCfg)
        | _ => .error .valueError
      else
        .ok ([mcRecord (dispatch method_name params kwargs)], emitCfg)
  | _ => .error .attributeError

/-- The `for call in call_list` loop of `system_multicall`: the
`call["method"]` subscript and the params/kwargs defaults happen outside
the per-entry `try`, so a malformed entry aborts the whole multicall;
inside the `try`, a `Fault` or any other exception becomes that entry's
error record without aborting the siblings. -/
def multicallLoop (dispatch : String → PyVal → PyVal → HOut)
    (genId : Nat → String) (emitCfg : Option EmitCfg) (idx : Nat) :
    List PyVal → Except PyErr (List PyVal)
  | [] => .ok []
  | call :: rest =>
      match pySubscript call "method" with
      | .error e => .error e
      | .ok mv =>
          let params := ((match call with
            | .dict kvs => dictGet kvs "params"
            | _ => none).getD (.list []))
          let kwargs := ((match call with
            | .dict kvs => dictGet kvs "kwargs"
            | _ => none).getD (.dict []))
          let step := multicallStep dispatch genId emitCfg idx mv params kwargs
          let recs := match step with
            | .ok rc => rc.1
            | .error e => [.dict [("error", .list [.int 1, .str (errText e)])]]
          let cfg' := match step with
            | .ok rc => rc.2
            | .error _ => emitCfg
          match multicallLoop dispatch genId cfg' (idx + 1) rest with
          | .error e => .error e
          | .ok rest' => .ok (recs ++ rest')

/-- `SimpleJSONRPCDispatcher.system_multicall(call_list)`, abstracted over
the bound `self._dispatch` method and the uuid generator. -/
def system_multicall (dispatch : String → PyVal → PyVal → HOut)
    (genId : Nat → String) (call_list : List PyVal) : Except PyErr (List PyVal) :=
  multicallLoop dispatch genId none 0 call_list

/-- A call entry dict built from a (method, params, kwargs) triple. -/
def mkCall (t : String × PyVal × PyVal) : PyVal :=
  .dict [("method", .str t.1), ("params", t.2.1), ("kwargs", t.2.2)]

/-- On a batch of well-formed non-async entries, `system_multicall`
produces exactly one record per entry, in order, each the record of that
entry's dispatch outcome. -/
theorem multicallLoop_map (dispatch : String → PyVal → PyVal → HOut)
    (genId : Nat → String) (cfg : Option EmitCfg) (idx : Nat)
    (ts : List (String × PyVal × PyVal))
    (hna : ∀ t ∈ ts, pyStartsWith t.1 "async:" = false) :
    multicallLoop dispatch genId cfg idx (ts.map mkCall)
      = .ok (ts.map fun t => mcRecord (dispatch t.1 t.2.1 t.2.2)) := by
  induction ts generalizing cfg idx with
  | nil => rfl
  | cons t ts ih =>
      obtain ⟨m, p, k⟩ := t
      have hm : pyStartsWith m "async:" = false :=
        hna (m, p, k) (List.mem_cons_self _ _)
      have hrest : ∀ t ∈ ts, pyStartsWith t.1 "async:" = false :=
        fun t ht => hna t (List.mem_cons_of_mem _ ht)
      simp [multicallLoop, mkCall, pySubscript, dictGet, multicallStep, hm,
        ih cfg (idx + 1) hrest]

/-- C3 (amended): for every multicall batch of N well-formed entries none
of which uses the reserved `async:` method-name convention, in which one
entry's handler raises (a Fault or any other exception) and every other
entry's handler returns a value, `system_multicall` returns exactly N
result records in submission order: the raising entry is an
`error: [code, message]` record and every other entry is the singleton
`[value]` record of its handler's result — one entry's failure does not
prevent the execution or reporting of its siblings.  (Amendment: async
entries are excluded; a successful `async:*:system.emit` entry appends no
record at all, so the record count can drop below N — see the
counterexample.) -/
theorem C3_multicall_isolation (dispatch : String → PyVal → PyVal → HOut)
    (genId : Nat → String) (ts : List (String × PyVal × PyVal))
    (hna : ∀ t ∈ ts, pyStartsWith t.1 "async:" = false)
    (j : Nat) (tj : String × PyVal × PyVal) (hj : ts[j]? = some tj)
    (hfail : ∀ v, dispatch tj.1 tj.2.1 tj.2.2 ≠ .ok v)
    (hok : ∀ i ti, i ≠ j → ts[i]? = some ti →
      ∃ v, dispatch ti.1 ti.2.1 ti.2.2 = .ok v) :
    ∃ res, system_multicall dispatch genId (ts.map mkCall) = .ok res
      ∧ res.length = ts.length
      ∧ (∃ c m, res[j]? = some (.dict [("error", .list [c, m])]))
      ∧ (∀ i ti, i ≠ j → ts[i]? = some ti →
          ∃ v, res[i]? = some (.list [v])
            ∧ dispatch ti.1 ti.2.1 ti.2.2 = .ok v) := by
  have hres : ∀ (t : String × PyVal × PyVal) (i : Nat), ts[i]? = some t →
      (ts.map fun t => mcRecord (dispatch t.1 t.2.1 t.2.2))[i]?
        = some (mcRecord (dispatch t.1 t.2.1 t.2.2)) := by
    intro t i hti
    rw [List.getElem?_map, hti]
    rfl
  refine ⟨ts.map fun t => mcRecord (dispatch t.1 t.2.1 t.2.2), ?_, by simp, ?_, ?_⟩
  · exact multicallLoop_map dispatch genId none 0 ts hna
  · cases hd : dispatch tj.1 tj.2.1 tj.2.2 with
    | ok v => exact absurd hd (hfail v)
    | fault c m =>
        refine ⟨c, m, ?_⟩
        rw [hres tj j hj, hd]
        rfl
    | exn msg =>
        refine ⟨.int 1, .str msg, ?_⟩
        rw [hres tj j hj, hd]
        rfl
  · intro i ti hne hget
    obtain ⟨v, hv⟩ := hok i ti hne hget
    refine ⟨v, ?_, hv⟩
    rw [hres ti i hget, hv]
    rfl

/-- The handler table for the C3 witness: `boom` raises a Fault, anything
else returns 0. -/
def c3Dis : String → PyVal → PyVal → HOut :=
  fun m _ _ => if m == "boom" then .fault (.int 5) (.str "x") else .ok (.int 0)

/-- C3 witness: a two-entry batch whose second handler raises yields
exactly two records, the first a `[0]` success record and the second an
error record. -/
theorem C3_multicall_isolation_witness :
    ∃ res, system_multicall c3Dis (fun _ => "id")
        ([("good", .list [], .dict []), ("boom", .list [], .dict [])].map mkCall)
        = .ok res
      ∧ res.length = [("good", PyVal.list [], PyVal.dict []),
          ("boom", PyVal.list [], PyVal.dict [])].length
      ∧ (∃ c m, res[1]? = some (.dict [("error", .list [c, m])]))
      ∧ (∀ i ti, i ≠ 1 →
          [("good", PyVal.list [], PyVal.dict []),
           ("boom", PyVal.list [], PyVal.dict [])][i]? = some ti →
          ∃ v, res[i]? = some (.list [v])
            ∧ c3Dis ti.1 ti.2.1 ti.2.2 = .ok v) := by
  refine C3_multicall_isolation c3Dis (fun _ => "id")
    [("good", .list [], .dict []), ("boom", .list [], .dict [])]
    ?_ 1 ("boom", .list [], .dict []) rfl
    (fun v h => by simp [c3Dis] at h) ?_
  · intro t ht
    simp only [List.mem_cons, List.not_mem_nil, or_false] at ht
    rcases ht with rfl | rfl <;> rfl
  · intro i ti hne hget
    match i with
    | 0 =>
        simp only [List.getElem?_cons_zero, Option.some.injEq] at hget
        subst hget
        exact ⟨.int 0, by simp [c3Dis]⟩
    | 1 => exact absurd rfl hne
    | n + 2 => simp at hget

/-- C3 counterexample: the claim as stated fails.  A two-entry batch whose
first entry is a well-formed `async:1:system.emit` configuration entry and
whose second handler raises returns only one record: the emit entry
appends nothing to the results, so the response does not have exactly N
records. -/
theorem C3_counterexample :
    (system_multicall c3Dis (fun _ => "id")
        [.dict [("method", .str "async:1:system.emit"),
                ("params", .list [.str "sse:0:k", .str "urn:uuid"]),
                ("kwargs", .dict [("url", .str "https://h/hook"),
                                  ("api_key", .str "key")])],
         .dict [("method", .str "boom")]]).map List.length
      = .ok 1 := by rfl

/-! ## `MultiCallIterator` (`_client.py` lines 437-451) -/

/-- `MultiCallIterator.__getitem__(i)`: a dict record is taken for a fault
and `Fault(item['faultCode'], item['faultString'])` is raised — the key
subscripts happen first and raise `KeyError` when absent; a list record
returns its first element (`IndexError` when empty); any other record
raises `ValueError("unexpected type in multicall result")`.  Indices are
modelled as naturals (the iterator is consumed positionally). -/
def multiCallIterator_getitem (results : List PyVal) (i : Nat) :
    Except PyErr PyVal :=
  match results[i]? with
  | none => .error .indexError
  | some item =>
      match item with
      | .dict kvs =>
          (match dictGet kvs "faultCode" with
           | none => .error .keyError
           | some c =>
               match dictGet kvs "faultString" with
               | none => .error .keyError
               | some m => .error (.fault c m))
      | .list xs =>
          (match xs.head? with
           | some v => .ok v
           | none => .error .indexError)
      | _ => .error .valueError

/-- C4: code bug.  The server-side failure record for a multicall entry
that raised `Fault(7, "boom")` is the `error: [7, "boom"]` dict, but the
client-side `MultiCallIterator.__getitem__` reads the XML-RPC style keys
`faultCode`/`faultString` from dict records, so indexing the failure
record raises `KeyError` instead of the entry's Fault — contradicting the
iterator's own docstring ("Exceptions are raised in response to jsonrpc
faults").  The success half behaves as claimed: a `[value]` record yields
its singleton value. -/
theorem C4_iterator_fault_mismatch :
    mcRecord (.fault (.int 7) (.str "boom"))
        = .dict [("error", .list [.int 7, .str "boom"])]
    ∧ multiCallIterator_getitem [.dict [("error", .list [.int 7, .str "boom"])]] 0
        = .error .keyError
    ∧ multiCallIterator_getitem [.dict [("error", .list [.int 7, .str "boom"])]] 0
        ≠ .error (.fault (.int 7) (.str "boom"))
    ∧ multiCallIterator_getitem [.list [.int 3]] 0 = .ok (.int 3) := by
  refine ⟨rfl, rfl, ?_, rfl⟩
  intro h
  simp [multiCallIterator_getitem, dictGet] at h

/-! ## SSE client parser (`_client.py` lines 1224-1304)

One connection pass of the `sse` generator: the `for v in f` line loop
over the received byte stream, modelled as a character sequence. -/

/-- The accumulated per-event state of the line loop (`event`, `data`,
`event_id`), plus the connection-level `last_event_id` and `retry`
values. -/
structure SSEState where
  event : String
  data : Option (List String)
  event_id : String
  last_event_id : String
  retry : Int
deriving Repr

/-- Elements produced by the generator: a flushed `[event, data, id]`
record, or the `["error", e, last_event_id]` element yielded when an
exception escapes the line loop (the exception object itself is
environment data, so only the id is kept). -/
inductive SSEOut where
  | ev (event : String) (data : Option (List String)) (id : String)
  | errEv (lastId : String)
deriving Repr

/-- Read one line, up to and including a newline, from the stream
(iteration of a file object yields such lines; the last line may lack the
newline). -/
def readLine (cs : List Char) : List Char × List Char :=
  match cs with
  | [] => ([], [])
  | c :: rest =>
      if c = '\n' then ([c], rest)
      else (c :: (readLine rest).1, (readLine rest).2)

/-- Python `f.read(n)`: `n` characters (all remaining ones when `n` is
negative). -/
def pyRead (n : Int) (cs : List Char) : List Char × List Char :=
  if n < 0 then (cs, [])
  else (cs.take n.toNat, cs.drop n.toNat)

/-- The digits of a literal as a number, `none` when empty or
non-numeric. -/
def digitsVal (cs : List Char) : Option Nat :=
  if cs.isEmpty then none
  else
    cs.foldl
      (fun acc c =>
        match acc with
        | none => none
        | some n => if c.isDigit then some (n * 10 + (c.toNat - 48)) else none)
      (some 0)

/-- Python `int(s)`: surrounding blanks stripped, optional sign, decimal
digits; `none` models the `ValueError` of a malformed literal. -/
def pyInt (s : String) : Option Int :=
  let cs := ((s.toList.dropWhile (· = ' ')).reverse.dropWhile (· = ' ')).reverse
  match cs with
  | '-' :: ds => (digitsVal ds).map (fun n => -(n : Int))
  | '+' :: ds => (digitsVal ds).map (fun n => (n : Int))
  | ds => (digitsVal ds).map (fun n => (n : Int))

/-- Python `v.split(':', 1)` when it yields two parts; `none` when the
line has no colon (the `k, v` unpacking raises and the loop breaks). -/
def splitColon1 (cs : List Char) : Option (List Char × List Char) :=
  match cs with
  | [] => none
  | c :: rest =>
      if c = ':' then some ([], rest)
      else
        match splitColon1 rest with
        | some (k, v) => some (c :: k, v)
        | none => none

/-- `v = v[1:-1] if v and v[0] == ' ' else v[:-1]`: strip one leading
blank and the trailing newline. -/
def sseVal (v : List Char) : List Char :=
  match v with
  | ' ' :: rest => rest.dropLast
  | _ => v.dropLast

/-- The blank-line flush: an event is emitted when data or an id was
accumulated (with `"message"` as the default event name), or when only an
event name was set; the per-event state resets afterwards. -/
def sseFlush (st : SSEState) : Option SSEOut × SSEState :=
  let out : Option SSEOut :=
    if (match st.data with | some l => !l.isEmpty | none => false)
        || st.event_id != "" then
      some (if st.event != "" then .ev st.event st.data st.event_id
            else .ev "message" st.data st.event_id)
    else if st.event != "" then some (.ev st.event st.data st.event_id)
    else none
  (out, { st with event := "", data := none, event_id := "" })

/-- The `for v in f` line loop of `sse` for one connection: field lines
accumulate into the state (`event`, appended `data`, `id` also updating
`last_event_id`, `retry`, `chunk:<n>` reading `n` raw characters plus one
discarded line); a blank line flushes; a colon-less line breaks; a failed
`int()` conversion escapes the loop and yields an error element.  `fuel`
bounds the number of loop iterations; each iteration consumes at least
one character, so `input.length + 1` is always enough. -/
def sseLoopF (fg_ping : Bool) :
    Nat → SSEState → List Char → List SSEOut × SSEState
  | 0, st, _ => ([], st)
  | fuel + 1, st, input =>
      match input with
      | [] => ([], st)
      | c :: cs =>
          let (line, rest) := readLine (c :: cs)
          if line = ['\n'] then
            let (out, st') := sseFlush st
            let (outs, stf) := sseLoopF fg_ping fuel st' rest
            ((match out with | some o => o :: outs | none => outs), stf)
          else
            match splitColon1 line with
            | none => ([], st)
            | some (k, vraw) =>
                let vv := sseVal vraw
                if k = [] ∧ fg_ping then
                  sseLoopF fg_ping fuel { st with event := "ping" } rest
                else if k = "chunk".toList then
                  match pyInt (String.mk vv) with
                  | none => ([.errEv st.last_event_id], st)
                  | some n =>
                      let (chunkCs, rest2) := pyRead n rest
                      let rest3 := (readLine rest2).2
                      let newData := some ((st.data.getD []) ++ [String.mk chunkCs])
                      sseLoopF fg_ping fuel { st with data := newData } rest3
                else if k = "event".toList then
                  sseLoopF fg_ping fuel { st with event := String.mk vv } rest
                else if k = "data".toList then
                  let newData := some ((st.data.getD []) ++ [String.mk vv])
                  sseLoopF fg_ping fuel { st with data := newData } rest
                else if k = "id".toList then
                  let nid := String.mk vv
                  sseLoopF fg_ping fuel
                    { st with event_id := nid, last_event_id := nid } rest
                else if k = "retry".toList then
                  match pyInt (String.mk vv) with
                  | none => ([.errEv st.last_event_id], st)
                  | some n => sseLoopF fg_ping fuel { st with retry := n } rest
                else
                  sseLoopF fg_ping fuel st rest

/-- One connection pass of `sse` over a received stream, from the initial
state `event, data, event_id = "", None, ""` with `retry = 2000`. -/
def sseRun (fg_ping : Bool) (last : String) (input : String) :
    List SSEOut × SSEState :=
  sseLoopF fg_ping (input.toList.length + 1)
    ⟨"", none, "", last, 2000⟩ input.toList

/-- C9: feeding the SSE parser the line sequence `"event: ping\n"`,
`"data: hello\n"`, `"\n"` yields exactly one Event record with event name
`"ping"`, data `["hello"]` and id `""`, after which the accumulated event
state is reset (`event = ""`, `data = None`, `event_id = ""`). -/
theorem C9_sse_ping_event :
    sseRun false "" "event: ping\ndata: hello\n\n"
      = ([.ev "ping" (some ["hello"]) ""],
         { event := "", data := none, event_id := "",
           last_event_id := "", retry := 2000 }) := by rfl

/-! ## HTTP transport (`_client.py` `Transport` class) -/

/-- An HTTP(S) connection object, reduced to what the transport observes:
its security class and the host it was built for. -/
structure Conn where
  secure : Bool
  chost : String
deriving Repr

/-- The mutable `Transport` state (`__init__`, lines 743-753), plus the
class-level attributes that the methods consult: `isSafe` stands for the
`'SafeTransport' == self.__class__.__name__` test. -/
structure TState where
  connection : Option (String × Conn)
  extra_headers : List (String × String)
  api_key : String
  host_name : String
  http_method : String
  api_headers : Option (List (String × String))
  hosts301 : List (String × String)
  isSafe : Bool
  accept_gzip_encoding : Bool
  encode_threshold : Option Int
deriving Repr

/-- A fresh `Transport()` state: `POST` method, gzip accepted, threshold
1400, nothing cached. -/
def initState : TState :=
  { connection := none, extra_headers := [], api_key := "", host_name := "",
    http_method := "POST", api_headers := none, hosts301 := [],
    isSafe := false, accept_gzip_encoding := true,
    encode_threshold := some 1400 }

/-- The hexadecimal value of a character, if any. -/
def hexVal (c : Char) : Option Nat :=
  if '0' ≤ c ∧ c ≤ '9' then some (c.toNat - 48)
  else if 'a' ≤ c ∧ c ≤ 'f' then some (c.toNat - 87)
  else if 'A' ≤ c ∧ c ≤ 'F' then some (c.toNat - 55)
  else none

/-- `urllib.parse.unquote_to_bytes` on an ASCII credential string:
percent-escapes become bytes, malformed escapes stay literal. -/
def percentDecode : List Char → List Nat
  | '%' :: h1 :: h2 :: rest =>
      match hexVal h1, hexVal h2 with
      | some a, some b => (a * 16 + b) :: percentDecode rest
      | _, _ => '%'.toNat :: percentDecode (h1 :: h2 :: rest)
  | c :: rest => c.toNat :: percentDecode rest
  | [] => []

/-- The base64 alphabet. -/
def b64alphabet : List Char :=
  "ABCDEFGHIJKLMNOPQRSTUVWXYZabcdefghijklmnopqrstuvwxyz0123456789+/".toList

/-- The base64 character of a 6-bit value. -/
def b64char (n : Nat) : Char := b64alphabet.getD n 'A'

/-- Plain base64 of a byte sequence, with `=` padding.  This models
`base64.encodebytes` followed by the `"".join(auth.split())` whitespace
stripping of `get_host_info` (the line breaks encodebytes inserts are
removed again). -/
def b64encode : List Nat → List Char
  | a :: b :: c :: rest =>
      b64char (a / 4) :: b64char (a % 4 * 16 + b / 16)
        :: b64char (b % 16 * 4 + c / 64) :: b64char (c % 64) :: b64encode rest
  | [a, b] => [b64char (a / 4), b64char (a % 4 * 16 + b / 16),
      b64char (b % 16 * 4), '=']
  | [a] => [b64char (a / 4), b64char (a % 4 * 16), '=', '=']
  | [] => []

/-- `urllib.parse.splituser`: partition at the last `@` (`rpartition`);
`none` when the host carries no credentials part. -/
def splituserParts (host : String) : Option String × String :=
  let parts := splitChar '@' host.toList
  match parts.reverse with
  | [] => (none, host)
  | [_] => (none, host)
  | h :: rest =>
      (some (String.mk (List.intercalate ['@'] rest.reverse)), String.mk h)

/-- `Transport.get_host_info(host)` (lines 858-876) for string hosts (the
only form this repository's callers use; the `(host, x509)` tuple form is
not modelled): a `user:pw@host` prefix becomes a Basic Authorization
header (percent-unquoted, base64-encoded, whitespace-stripped). -/
def get_host_info (host : String) : String × List (String × String) :=
  match splituserParts host with
  | (some auth, h) =>
      if auth = "" then (h, [])
      else (h, [("Authorization",
          "Basic " ++ String.mk (b64encode (percentDecode auth.toList)))])
  | (none, h) => (h, [])

/-- `Transport.make_connection(host)` (lines 884-895) together with the
`SafeTransport` override (lines 1063-1081): apply the sticky redirect
remap, reuse the cached connection when the host matches, otherwise build
a connection of the transport's security class and cache it (replacing
any previous one without closing it). -/
def make_connection (s : TState) (host : String) : TState × Conn :=
  let host := (dictGet s.hosts301 host).getD host
  let reuse : Option Conn :=
    match s.connection with
    | some (h, c) => if h = host then some c else none
    | none => none
  match reuse with
  | some c => (s, c)
  | none =>
      let (chost, eh) := get_host_info host
      let c : Conn := ⟨s.isSafe, chost⟩
      ({ s with connection := some (host, c), extra_headers := eh }, c)

/-- `Transport.close()` (lines 901-905): drop and close the cached
connection, if any. -/
def transport_close (s : TState) : TState :=
  match s.connection with
  | some _ => { s with connection := none }
  | none => s

/-- The request body handed to `send_request`: bytes, a list/tuple of
byte rows, a generator (sent chunked through the `_G` wrapper), or a
file-like object (sent chunked). -/
inductive ReqBody where
  | bytes (b : List Nat)
  | list (rows : List (List Nat))
  | tuple (rows : List (List Nat))
  | gen (rows : List (List Nat))
  | stream (chunks : List (List Nat))
deriving Repr

/-- Python `len(request_body)` (bytes length, or element count of a
list/tuple — only consulted when the body is not chunked). -/
def ReqBody.pyLen : ReqBody → Nat
  | .bytes b => b.length
  | .list rows => rows.length
  | .tuple rows => rows.length
  | .gen rows => rows.length
  | .stream chunks => chunks.length

/-- Python truthiness of the request body (`self._http_method if
request_body else "GET"`). -/
def ReqBody.truthy : ReqBody → Bool
  | .bytes b => !b.isEmpty
  | .list rows => !rows.isEmpty
  | .tuple rows => !rows.isEmpty
  | .gen _ => true
  | .stream _ => true

/-- Insert one header into an `OrderedDict` under construction: an
existing key keeps its position but takes the new value, a new key is
appended. -/
def odInsert (acc : List (String × String)) (kv : String × String) :
    List (String × String) :=
  if acc.any (fun p => p.1 == kv.1) then
    acc.map (fun p => if p.1 == kv.1 then (p.1, kv.2) else p)
  else acc ++ [kv]

/-- `OrderedDict(headers + api_headers)` as a header list. -/
def odMerge (hs : List (String × String)) : List (String × String) :=
  hs.foldl odInsert []

/-- The `User-Agent` value (`"Manuscript-jsonrpc/%s" % __version__`, with
the interpreter major version 3). -/
def user_agent : String := "Manuscript-jsonrpc/3.4.17"

/-- What `send_request` did: the updated transport state, the connection
used, the headers as emitted by the `putheader` loop (after the optional
`OrderedDict` merge with `_api_headers`), whether the body goes out
chunked, and the body as handed to `endheaders`. -/
structure SendOut where
  state : TState
  conn : Conn
  headers : List (String × String)
  chunked : Bool
  sentBody : ReqBody
deriving Repr

/-- `Transport.send_request(host, handler, request_body, debug)` (lines
916-969), with `gz` the availability of the `gzip` module.  The request
line (`putrequest` with the method, `GET` for a falsy body) is not a
header and is not modelled beyond the connection effects of
`make_connection`. -/
def send_request (gz : Option GzCodec) (s : TState) (host : String)
    (request_body : ReqBody) : SendOut :=
  let mc := make_connection s host
  let s := mc.1
  let connection := mc.2
  let headers := s.extra_headers
  let headers := if s.host_name != "" then ("Host", s.host_name) :: headers
    else headers
  let headers := if s.accept_gzip_encoding && gz.isSome then
      headers ++ [("Accept-Encoding", "gzip")]
    else headers
  let headers := headers ++ [("Content-Type", "application/json"),
    ("User-Agent", user_agent)]
  let headers := if s.api_key != "" then headers ++ [("X-API-Key", s.api_key)]
    else headers
  let chunked : Bool :=
    match request_body with
    | .stream _ => true
    | .gen _ => true
    | _ => false
  let encoded : Bool :=
    match request_body, gz with
    | .list _, some _ => true
    | .tuple _, some _ => true
    | .bytes b, some _ =>
        (match s.encode_threshold with
         | some t => t < (b.length : Int)
         | none => false)
    | _, _ => false
  let headers := if chunked then headers
    else if encoded then headers ++ [("Content-Encoding", "gzip")]
    else headers
  let body2 : ReqBody :=
    if chunked then request_body
    else if encoded then
      match request_body, gz with
      | .list rows, some g => .bytes (g.compress rows)
      | .tuple rows, some g => .bytes (g.compress rows)
      | .bytes b, some g => .bytes (g.compress [b])
      | rb, _ => rb
    else request_body
  let headers := if chunked then headers ++ [("Transfer-Encoding", "chunked")]
    else headers ++ [("Content-Length", toString body2.pyLen)]
  let headers :=
    match s.api_headers with
    | some ah => odMerge (headers ++ ah)
    | none => headers
  ⟨s, connection, headers, chunked, body2⟩

/-- The HTTP response as the transport observes it: status and reason,
the `location` / `Content-Encoding` / `Content-Type` header values (empty
string = absent), the full header dictionary, and the body bytes. -/
structure HttpResp where
  status : Nat
  reason : String
  location : String
  contentEncoding : String
  contentType : String
  headers : List (String × String)
  body : List Nat
deriving Repr

/-- `bytes.splitlines()`: split at `\r\n`, `\r` or `\n`, ends not kept,
no trailing empty line. -/
def splitlinesGo (cur : List Nat) : List Nat → List (List Nat)
  | [] => if cur.isEmpty then [] else [cur.reverse]
  | 13 :: 10 :: rest => cur.reverse :: splitlinesGo [] rest
  | 13 :: rest => cur.reverse :: splitlinesGo [] rest
  | 10 :: rest => cur.reverse :: splitlinesGo [] rest
  | b :: rest => splitlinesGo (b :: cur) rest

/-- `bytes.splitlines()` of a response body. -/
def splitlinesBytes (bs : List Nat) : List (List Nat) := splitlinesGo [] bs

/-- What `parse_response` returns: an unmarshalled value, the raw line
list of a `text/*` response, or (from `single_request`) the `(location,)`
singleton of an empty-netloc redirect. -/
inductive SRRes where
  | val (v : PyVal)
  | text (lines : List (List Nat))
  | loc (location : String)
deriving Repr

/-- `Transport.parse_response(response)` (`_client.py` lines 1005-1047):
gunzip when `Content-Encoding: gzip` (a missing gzip module raises
`NotImplementedError` through `GzipDecodedResponse`, a corrupt stream
`ValueError`); a `text/*` content type returns the raw split lines;
otherwise the body is JSON-parsed with the binary object hook
(`parseJson` models the external `json` text parser; `none` is its
`JSONDecodeError`), a `GET` method returns the parsed value as is, a
`method` envelope returns `[params, kwargs]` (or just `params` when
kwargs is falsy), `result` returns the value, `error` raises the Fault,
and anything else returns the parsed value unchanged. -/
def parse_response (gz : Option GzCodec) (parseJson : List Nat → Option PyVal)
    (http_method : String) (resp : HttpResp) : Except PyErr SRRes :=
  let fg_text := pyStartsWith resp.contentType "text"
  let rawE : Except PyErr (List Nat) :=
    if resp.contentEncoding = "gzip" then
      match gz with
      | none => .error .notImplementedError
      | some g =>
          match g.extract resp.body with
          | some d => .ok d
          | none => .error .valueError
    else .ok resp.body
  match rawE with
  | .error e => .error e
  | .ok raw =>
    if fg_text then .ok (.text (splitlinesBytes raw))
    else
      match parseJson raw with
      | none => .error .valueError
      | some j =>
        match applyHook j with
        | .error e => .error e
        | .ok r =>
          if http_method = "GET" then .ok (.val r)
          else
            match pyContains r "method" with
            | .error e => .error e
            | .ok true =>
                let pres : Except PyErr PyVal :=
                  match pyContains r "params" with
                  | .error e => .error e
                  | .ok true => pyPop r "params"
                  | .ok false => .ok (.list [])
                (match pres with
                 | .error e => .error e
                 | .ok params =>
                   let kres : Except PyErr PyVal :=
                     match pyContains r "kwargs" with
                     | .error e => .error e
                     | .ok true => pyPop r "kwargs"
                     | .ok false => .ok (.dict [])
                   match kres with
                   | .error e => .error e
                   | .ok kwargs =>
                       if pyTruthy kwargs then .ok (.val (.list [params, kwargs]))
                       else .ok (.val params))
            | .ok false =>
              match pyContains r "result" with
              | .error e => .error e
              | .ok true =>
                  (match pyPop r "result" with
                   | .error e => .error e
                   | .ok v => .ok (.val v))
              | .ok false =>
                match pyContains r "error" with
                | .error e => .error e
                | .ok true =>
                    (match pyPop r "error" with
                     | .error e => .error e
                     | .ok e => .error (faultFromStar e))
                | .ok false => .ok (.val r)

/-- The scheme of an absolute `scheme://netloc/...` URL (the form the
`Location` redirect signal carries); empty otherwise. -/
def splitSchemeRest (cs : List Char) : Option (List Char × List Char) :=
  match cs with
  | [] => none
  | ':' :: '/' :: '/' :: rest => some ([], rest)
  | c :: rest => (splitSchemeRest rest).map (fun p => (c :: p.1, p.2))

/-- `urllib.parse.urlparse(url).scheme` for absolute URLs. -/
def schemeOf (url : String) : String :=
  match splitSchemeRest url.toList with
  | some (sch, _) => String.mk sch
  | none => ""

/-- `urllib.parse.urlparse(url).netloc` for absolute URLs. -/
def netlocOf (url : String) : String :=
  match splitSchemeRest url.toList with
  | some (_, rest) =>
      String.mk (rest.takeWhile (fun c => c ≠ '/' ∧ c ≠ '?' ∧ c ≠ '#'))
  | none => ""

/-- Remove a key from a string dict. -/
def removeKey (m : List (String × String)) (k : String) :
    List (String × String) :=
  m.filter (fun p => p.1 != k)

/-- Dict assignment `m[k] = v` on an association list. -/
def setKey (m : List (String × String)) (k v : String) :
    List (String × String) :=
  if (dictGet m k).isSome then
    m.map (fun p => if p.1 = k then (k, v) else p)
  else m ++ [(k, v)]

/-- The tail of `single_request` once the (possibly redirected) response
is at hand: a 200 status goes through `parse_response` — a `Fault` from
it re-raises as is, any other exception closes the cached connection
first; any other status falls out of the `try` block into the epilogue,
which reads the body (gunzipping it when it starts with the gzip magic
bytes `1f 8b 08 00`), decodes it as text (`bdecode` models
`bytes.decode()`), and raises `ProtocolError(host + handler, status,
reason [+ newline + body], headers)` — with the cached connection left
untouched, since that raise happens outside the `try`/`except` that
calls `self.close()`. -/
def single_request_finish (gz : Option GzCodec)
    (parseJson : List Nat → Option PyVal) (bdecode : List Nat → Option String)
    (s : TState) (host handler : String) (resp : HttpResp) :
    TState × Except PyErr SRRes :=
  if resp.status = 200 then
    match parse_response gz parseJson s.http_method resp with
    | .ok r => (s, .ok r)
    | .error (.fault c m) => (s, .error (.fault c m))
    | .error e => (transport_close s, .error e)
  else
    let body := resp.body
    let bodyTxt : Except PyErr String :=
      if listStartsWith [31, 139, 8, 0] body then
        match gzip_decode gz body (-1) with
        | .error e => .error e
        | .ok d =>
            match bdecode d with
            | some t => .ok t
            | none => .error .unicodeDecodeError
      else
        match bdecode body with
        | some t => .ok t
        | none => .error .unicodeDecodeError
    match bodyTxt with
    | .error e => (s, .error e)
    | .ok t =>
        if t != "" then
          (s, .error (.protocolError (host ++ handler) resp.status
              (resp.reason ++ "\n" ++ t) resp.headers))
        else
          (s, .error (.protocolError (host ++ handler) resp.status
              resp.reason resp.headers))

/-- `Transport.single_request(host, handler, request_body, verbose)`
(`_client.py` lines 778-846).  `net i` is the response the network
returns to the `i`-th `getresponse()` of this invocation (the second one
only happens on a redirect).  A response carrying a `location` header
with a parseable netloc re-issues the request against that host — over a
connection of the other security class when the scheme class differs —
and records the sticky `hosts301` remap; an empty netloc returns the
`(location,)` singleton.  Otherwise the status decides between
`parse_response` and the `ProtocolError` epilogue. -/
def single_request (gz : Option GzCodec)
    (parseJson : List Nat → Option PyVal) (bdecode : List Nat → Option String)
    (s : TState) (host handler : String) (request_body : ReqBody)
    (net : Nat → HttpResp) : TState × Except PyErr SRRes :=
  let so := send_request gz s host request_body
  let s1 := so.state
  let resp := net 0
  let location := resp.location
  if location != "" then
    let host2 := netlocOf location
    let fg2 := schemeOf location = "https"
    if host2 != "" then
      let fg1 := s1.isSafe
      let s2 :=
        if fg1 != fg2 then
          let gi := get_host_info host2
          let c2 : Conn := ⟨fg2, gi.1⟩
          { s1 with extra_headers := gi.2, connection := some (host2, c2) }
        else s1
      let so2 := send_request gz s2 host2 request_body
      let s3 := so2.state
      let resp2 := net 1
      let s4 := { s3 with hosts301 := setKey (removeKey s3.hosts301 host2) host host2 }
      single_request_finish gz parseJson bdecode s4 host handler resp2
    else
      (s1, .ok (.loc location))
  else
    single_request_finish gz parseJson bdecode s1 host handler resp

/-- The Basic-auth header list of `get_host_info` never carries a
`Content-Encoding` entry. -/
theorem get_host_info_no_gzip_ce (h : String) :
    ("Content-Encoding", "gzip") ∉ (get_host_info h).2 := by
  rcases hsp : splituserParts h with ⟨_ | auth, h'⟩
  · simp [get_host_info, hsp]
  · by_cases ha : auth = "" <;> simp [get_host_info, hsp, ha]

/-- `make_connection` either leaves the state alone (cache hit) or caches
a fresh connection and installs `get_host_info`'s extra headers. -/
theorem make_connection_state (s : TState) (host : String) :
    (make_connection s host).1 = s
      ∨ ∃ h' c, (make_connection s host).1
          = { s with connection := some c, extra_headers := (get_host_info h').2 } := by
  rcases hc : s.connection with _ | ⟨h0, c0⟩
  · refine Or.inr ⟨(dictGet s.hosts301 host).getD host, ?_, ?_⟩
    · exact ((dictGet s.hosts301 host).getD host,
        ⟨s.isSafe, (get_host_info ((dictGet s.hosts301 host).getD host)).1⟩)
    · simp [make_connection, hc]
  · by_cases he : h0 = (dictGet s.hosts301 host).getD host
    · exact Or.inl (by simp [make_connection, hc, he])
    · refine Or.inr ⟨(dictGet s.hosts301 host).getD host, ?_, ?_⟩
      · exact ((dictGet s.hosts301 host).getD host,
          ⟨s.isSafe, (get_host_info ((dictGet s.hosts301 host).getD host)).1⟩)
      · simp [make_connection, hc, he]

/-- After `make_connection` a connection is always cached. -/
theorem make_connection_isSome (s : TState) (host : String) :
    (make_connection s host).1.connection.isSome := by
  rcases hc : s.connection with _ | ⟨h0, c0⟩
  · simp [make_connection, hc]
  · by_cases he : h0 = (dictGet s.hosts301 host).getD host <;>
      simp [make_connection, hc, he]

/-- `make_connection` only touches the cached connection and the extra
headers. -/
theorem make_connection_fields (s : TState) (host : String) :
    (make_connection s host).1.encode_threshold = s.encode_threshold
      ∧ (make_connection s host).1.api_headers = s.api_headers
      ∧ (make_connection s host).1.accept_gzip_encoding
          = s.accept_gzip_encoding
      ∧ (make_connection s host).1.api_key = s.api_key
      ∧ (make_connection s host).1.host_name = s.host_name := by
  rcases make_connection_state s host with h | ⟨h', c, h⟩ <;> rw [h] <;>
    exact ⟨rfl, rfl, rfl, rfl, rfl⟩

/-- A state without a stale `Content-Encoding` extra header keeps that
property across `make_connection`. -/
theorem make_connection_no_ce (s : TState) (host : String)
    (hover : ("Content-Encoding", "gzip") ∉ s.extra_headers) :
    ("Content-Encoding", "gzip") ∉ (make_connection s host).1.extra_headers := by
  rcases make_connection_state s host with h | ⟨h', c, h⟩ <;> rw [h]
  · exact hover
  · exact get_host_info_no_gzip_ce h'

/-- C8: with gzip available, the default 1400-byte threshold, no
caller-injected `_api_headers` override and no stale `Content-Encoding`
entry among the transport's extra headers: a list or tuple request body
whose serialized size is at least the threshold is always sent with the
`Content-Encoding: gzip` header and a gzip-compressed body (the code in
fact compresses every list/tuple body regardless of size); a scalar bytes
body smaller than the threshold never gets that header. -/
theorem C8_gzip_threshold (gz : GzCodec) (s : TState) (host : String)
    (hah : s.api_headers = none) (hth : s.encode_threshold = some 1400)
    (hover : ("Content-Encoding", "gzip") ∉ s.extra_headers) :
    (∀ rows : List (List Nat), 1400 ≤ (rows.map List.length).sum →
        (("Content-Encoding", "gzip")
            ∈ (send_request (some gz) s host (.list rows)).headers
          ∧ (send_request (some gz) s host (.list rows)).sentBody
              = .bytes (gz.compress rows))
      ∧ (("Content-Encoding", "gzip")
            ∈ (send_request (some gz) s host (.tuple rows)).headers
          ∧ (send_request (some gz) s host (.tuple rows)).sentBody
              = .bytes (gz.compress rows)))
    ∧ (∀ b : List Nat, (b.length : Int) < 1400 →
        ("Content-Encoding", "gzip")
          ∉ (send_request (some gz) s host (.bytes b)).headers) := by
  have hf := make_connection_fields s host
  have hah' : (make_connection s host).1.api_headers = none := by
    rw [hf.2.1, hah]
  have hth' : (make_connection s host).1.encode_threshold = some 1400 := by
    rw [hf.1, hth]
  have hce := make_connection_no_ce s host hover
  constructor
  · intro rows _
    refine ⟨⟨?_, ?_⟩, ?_, ?_⟩ <;>
      simp [send_request, hah']
  · intro b hb
    intro hmem
    have hnot : ¬ ((1400 : Int) < (b.length : Int)) := by omega
    by_cases h1 : ((make_connection s host).1.host_name != "") = true <;>
    by_cases h2 : (make_connection s host).1.accept_gzip_encoding = true <;>
    by_cases h3 : ((make_connection s host).1.api_key != "") = true <;>
      simp [send_request, hah', hth', hnot, h1, h2, h3] at hmem <;>
      exact hce hmem

set_option maxRecDepth 4000 in
/-- C8 witness: the gzip negotiation evaluated on a fresh transport with
a 1400-byte list row and a small scalar body. -/
theorem C8_gzip_threshold_witness :
    (("Content-Encoding", "gzip")
        ∈ (send_request (some ⟨List.flatten, fun bs => some bs⟩) initState "h"
            (.list [List.replicate 1400 0])).headers
      ∧ (send_request (some ⟨List.flatten, fun bs => some bs⟩) initState "h"
            (.list [List.replicate 1400 0])).sentBody
          = .bytes (List.flatten [List.replicate 1400 0]))
    ∧ ("Content-Encoding", "gzip")
        ∉ (send_request (some ⟨List.flatten, fun bs => some bs⟩) initState "h"
            (.bytes [49])).headers := by
  have h := C8_gzip_threshold ⟨List.flatten, fun bs => some bs⟩ initState "h"
    rfl rfl (by simp [initState])
  have hge : 1400 ≤ (([List.replicate 1400 0] : List (List Nat)).map List.length).sum := by
    rw [List.map_cons, List.map_nil, List.length_replicate, List.sum_cons,
      List.sum_nil]
    omega
  exact ⟨⟨(h.1 [List.replicate 1400 0] hge).1.1,
    (h.1 [List.replicate 1400 0] hge).1.2⟩, h.2 [49] (by decide)⟩

/-- C5 (amended): for every HTTP response whose status is not 200 and
that carries no `Location` header, `single_request` raises a
`ProtocolError` carrying the URL (host plus handler path), the status
code, the reason together with the decoded body (gzip-decoded when the
body starts with the gzip magic bytes `1f 8b 08 00`), and the response
headers — and the cached connection is left cached, neither closed nor
cleared: the raise happens after the `try`/`except` block whose handler
calls `self.close()`.  (Amendment: the claim's "the cached connection is
closed and cleared before this error is raised" is false of the code —
see the counterexample.) -/
theorem C5_protocol_error (gz : GzCodec) (parseJson : List Nat → Option PyVal)
    (bdecode : List Nat → Option String) (s : TState) (host handler : String)
    (rb : ReqBody) (net : Nat → HttpResp) (t : String)
    (hloc : (net 0).location = "") (hst : ¬ (net 0).status = 200)
    (ht : ¬ t = "") :
    (¬ listStartsWith [31, 139, 8, 0] (net 0).body = true →
      bdecode (net 0).body = some t →
      single_request (some gz) parseJson bdecode s host handler rb net
        = ((send_request (some gz) s host rb).state,
           .error (.protocolError (host ++ handler) (net 0).status
             ((net 0).reason ++ "\n" ++ t) (net 0).headers))
      ∧ (single_request (some gz) parseJson bdecode s host handler rb net
          ).1.connection.isSome)
    ∧ (listStartsWith [31, 139, 8, 0] (net 0).body = true →
      ∀ d, gz.extract (net 0).body = some d →
      bdecode d = some t →
      single_request (some gz) parseJson bdecode s host handler rb net
        = ((send_request (some gz) s host rb).state,
           .error (.protocolError (host ++ handler) (net 0).status
             ((net 0).reason ++ "\n" ++ t) (net 0).headers))
      ∧ (single_request (some gz) parseJson bdecode s host handler rb net
          ).1.connection.isSome) := by
  have hsome : (send_request (some gz) s host rb).state.connection.isSome :=
    make_connection_isSome s host
  constructor
  · intro hmag hdec
    have heq : single_request (some gz) parseJson bdecode s host handler rb net
        = ((send_request (some gz) s host rb).state,
           .error (.protocolError (host ++ handler) (net 0).status
             ((net 0).reason ++ "\n" ++ t) (net 0).headers)) := by
      simp [single_request, single_request_finish, hloc, hst, hmag, hdec, ht]
    exact ⟨heq, by rw [heq]; exact hsome⟩
  · intro hmag d hext hdec
    have heq : single_request (some gz) parseJson bdecode s host handler rb net
        = ((send_request (some gz) s host rb).state,
           .error (.protocolError (host ++ handler) (net 0).status
             ((net 0).reason ++ "\n" ++ t) (net 0).headers)) := by
      simp [single_request, single_request_finish, gzip_decode, hloc, hst,
        hmag, hext, hdec, ht]
    exact ⟨heq, by rw [heq]; exact hsome⟩

/-- A 500 response with body `"oops"` and no location header. -/
def c5Resp : HttpResp :=
  { status := 500, reason := "ERR", location := "", contentEncoding := "",
    contentType := "", headers := [], body := [111, 111, 112, 115] }

/-- A 503 response whose body starts with the gzip magic bytes. -/
def c5RespGz : HttpResp :=
  { status := 503, reason := "BAD", location := "", contentEncoding := "",
    contentType := "", headers := [("a", "b")], body := [31, 139, 8, 0] }

/-- A plain ASCII model of `bytes.decode()`. -/
def asciiDecode : List Nat → Option String :=
  fun bs => some (String.mk (bs.map Char.ofNat))

/-- C5 witness: the ProtocolError evaluated on a fresh transport against
a plain-body 500 response and a gzip-body 503 response; the connection
remains cached. -/
theorem C5_protocol_error_witness :
    (single_request (some ⟨List.flatten, fun _ => some [111, 107]⟩) (fun _ => none)
        asciiDecode initState "h" "/p" (.bytes [49]) (fun _ => c5Resp)).2
      = .error (.protocolError "h/p" 500 ("ERR" ++ "\n" ++ "oops") [])
    ∧ (single_request (some ⟨List.flatten, fun _ => some [111, 107]⟩) (fun _ => none)
        asciiDecode initState "h" "/p" (.bytes [49]) (fun _ => c5Resp)).1.connection.isSome
    ∧ (single_request (some ⟨List.flatten, fun _ => some [111, 107]⟩) (fun _ => none)
        asciiDecode initState "h" "/p" (.bytes [49]) (fun _ => c5RespGz)).2
      = .error (.protocolError "h/p" 503 ("BAD" ++ "\n" ++ "ok") [("a", "b")]) := by
  have h := C5_protocol_error ⟨List.flatten, fun _ => some [111, 107]⟩ (fun _ => none)
    asciiDecode initState "h" "/p" (.bytes [49]) (fun _ => c5Resp) "oops"
    rfl (by decide) (by decide)
  have h2 := C5_protocol_error ⟨List.flatten, fun _ => some [111, 107]⟩ (fun _ => none)
    asciiDecode initState "h" "/p" (.bytes [49]) (fun _ => c5RespGz) "ok"
    rfl (by decide) (by decide)
  obtain ⟨ha, hb⟩ := h.1 (by decide) rfl
  obtain ⟨hc, hd⟩ := h2.2 rfl [111, 107] rfl rfl
  refine ⟨?_, hb, ?_⟩
  · rw [ha]
    rfl
  · rw [hc]
    rfl

/-- C5 counterexample: the claim as stated fails.  On a 500 response with
no location header, `single_request` raises the ProtocolError while the
connection cached by `send_request` is still present in the state — it
was not closed and cleared before the raise. -/
theorem C5_counterexample :
    (single_request (some ⟨List.flatten, fun bs => some bs⟩) (fun _ => none)
        asciiDecode initState "h" "/p" (.bytes [49]) (fun _ => c5Resp))
      = ({ initState with connection := some ("h", ⟨false, "h"⟩) },
         .error (.protocolError "h/p" 500 ("ERR" ++ "\n" ++ "oops") [])) := by rfl

end UdpRpc
